import Mathlib

/-!
Verification of the panorama-to-mesh reconstruction pipeline of
`ZoeDepth/api/utils/depth_processor.py` (class `PanoramaProcessor`).

The embedding is generic over a linear ordered field `α` together with
abstract transcendental functions (`c` for cosine, `s` for sine, `sq` for
square root, `piv` for π), so that every definition stays computable; the
claim theorems instantiate them with `Real.cos`, `Real.sin`, `Real.sqrt`
and `Real.pi`, which is the arithmetic the Python/numpy code performs
(modelled exactly, without floating-point rounding).
-/

/-- A 3D point, as produced by `pano_depth_to_world_points` (one row of the
`np.stack([x, y, z], axis=1)` output). -/
structure Pt3 (α : Type) where
  x : α
  y : α
  z : α
deriving DecidableEq

/-- A 2D numpy array of scalars: `H` rows × `W` columns, row-major. -/
structure Grid (α : Type) where
  H : ℕ
  W : ℕ
  val : ℕ → ℕ → α

/-- Element `i` of `np.linspace a b n`: for `n ≥ 2` the samples are evenly
spaced with both endpoints included; `np.linspace a b 1 = [a]`. -/
def linspaceAt {α : Type} [Field α] (a b : α) (n i : ℕ) : α :=
  if n ≤ 1 then a else a + (i : α) * ((b - a) / ((n - 1 : ℕ) : α))

/-- `PanoramaProcessor.pano_depth_to_world_points`: flatten the depth map
row-major as radii, build the flattened `meshgrid` of longitudes
(`np.linspace (-π) π W`) and latitudes (`np.linspace (-π/2) (π/2) H`), and
convert spherical to cartesian.  Flat index `i` corresponds to the pixel
`(i / W, i % W)`. -/
def pano_depth_to_world_points {α : Type} [Field α] (c s : α → α) (piv : α)
    (g : Grid α) : List (Pt3 α) :=
  (List.range (g.H * g.W)).map fun i =>
    let r := g.val (i / g.W) (i % g.W)
    let lon := linspaceAt (-piv) piv g.W (i % g.W)
    let lat := linspaceAt (-(piv / 2)) (piv / 2) g.H (i / g.W)
    ⟨r * c lat * c lon, r * c lat * s lon, r * s lat⟩

/-- `np.gradient` along axis 0 (rows) with unit spacing: one-sided
differences at the two borders, central differences in the interior.
numpy requires at least 2 samples along the axis; theorems about the mask
therefore carry the hypothesis `2 ≤ H`. -/
def npGradient0 {α : Type} [Field α] (g : Grid α) (i j : ℕ) : α :=
  if i = 0 then g.val 1 j - g.val 0 j
  else if i = g.H - 1 then g.val (g.H - 1) j - g.val (g.H - 2) j
  else (g.val (i + 1) j - g.val (i - 1) j) / 2

/-- `np.gradient` along axis 1 (columns), same scheme as `npGradient0`. -/
def npGradient1 {α : Type} [Field α] (g : Grid α) (i j : ℕ) : α :=
  if j = 0 then g.val i 1 - g.val i 0
  else if j = g.W - 1 then g.val i (g.W - 1) - g.val i (g.W - 2)
  else (g.val i (j + 1) - g.val i (j - 1)) / 2

/-- `PanoramaProcessor.depth_edges_mask`: cell `(i, j)` is `true` iff the
gradient magnitude `sqrt (dx^2 + dy^2)` strictly exceeds the threshold. -/
def depth_edges_mask {α : Type} [LinearOrderedField α] (sq : α → α)
    (g : Grid α) (threshold : α) (i j : ℕ) : Bool :=
  decide (threshold < sq (npGradient0 g i j ^ 2 + npGradient1 g i j ^ 2))

/-- Modelled from the spec: `create_triangles` is imported from
`zoedepth.utils.geometry`, which is not included under `src/`; §4.3 of the
spec describes it.  For each quad `(r, c)` with `r ∈ [0, H-2]`,
`c ∈ [0, W-2]` and flattened corners `tl = r*W+c`, `tr = tl+1`,
`bl = tl+W`, `br = bl+1`, the two triangles `(tl, bl, tr)` and
`(tr, bl, br)` are emitted, row-major over quads.  The optional `mask` is
an inclusion mask (the call site passes `~edge_mask`): the quad's pair is
emitted iff all four corner cells are `true`, i.e. the quad is skipped
entirely iff any corner cell is `true` in the exclusion (edge) mask. -/
def create_triangles (H W : ℕ) (mask : Option (ℕ → ℕ → Bool)) :
    List (ℕ × ℕ × ℕ) :=
  (List.range (H - 1)).flatMap fun r =>
    (List.range (W - 1)).flatMap fun c =>
      let tl := r * W + c
      let tr := tl + 1
      let bl := tl + W
      let br := bl + 1
      match mask with
      | none => [(tl, bl, tr), (tr, bl, br)]
      | some m =>
          if m r c && m r (c + 1) && m (r + 1) c && m (r + 1) (c + 1) then
            [(tl, bl, tr), (tr, bl, br)]
          else []

/-- Pointwise difference of two points. -/
def Pt3.sub {α : Type} [Field α] (p q : Pt3 α) : Pt3 α :=
  ⟨p.x - q.x, p.y - q.y, p.z - q.z⟩

/-- Cross product of two vectors. -/
def Pt3.cross {α : Type} [Field α] (u v : Pt3 α) : Pt3 α :=
  ⟨u.y * v.z - u.z * v.y, u.z * v.x - u.x * v.z, u.x * v.y - u.y * v.x⟩

/-- The in-memory mesh that `trimesh.Trimesh(vertices, faces)` holds:
a vertex list and a list of index triples. -/
structure Mesh (α : Type) where
  verts : List (Pt3 α)
  faces : List (ℕ × ℕ × ℕ)

/-- A face is degenerate when its three vertex positions span zero area
(repeated or collinear positions); this is the geometric test performed by
`trimesh.Trimesh.remove_degenerate_faces` (spec §4.4 step 1), with the
numerical tolerance being exact zero in the exact-arithmetic model. -/
def faceDegenerate {α : Type} [LinearOrderedField α] (verts : List (Pt3 α))
    (f : ℕ × ℕ × ℕ) : Bool :=
  let p := verts.getD f.1 ⟨0, 0, 0⟩
  let q := verts.getD f.2.1 ⟨0, 0, 0⟩
  let r := verts.getD f.2.2 ⟨0, 0, 0⟩
  decide (Pt3.cross (Pt3.sub q p) (Pt3.sub r p) = (⟨0, 0, 0⟩ : Pt3 α))

/-- `mesh.remove_degenerate_faces()`: drop every zero-area face. -/
def remove_degenerate_faces {α : Type} [LinearOrderedField α] (m : Mesh α) :
    Mesh α :=
  ⟨m.verts, m.faces.filter fun f => ! faceDegenerate m.verts f⟩

/-- The unordered key of a face: its three indices sorted ascending. -/
def sortKey3 (f : ℕ × ℕ × ℕ) : ℕ × ℕ × ℕ :=
  let a := f.1
  let b := f.2.1
  let c := f.2.2
  let lo := min a (min b c)
  let hi := max a (max b c)
  (lo, a + b + c - lo - hi, hi)

/-- Keep the first face carrying each unordered index triple. -/
def dedupFacesGo (seen : List (ℕ × ℕ × ℕ)) :
    List (ℕ × ℕ × ℕ) → List (ℕ × ℕ × ℕ)
  | [] => []
  | f :: rest =>
      if sortKey3 f ∈ seen then dedupFacesGo seen rest
      else f :: dedupFacesGo (sortKey3 f :: seen) rest

/-- `mesh.remove_duplicate_faces()`: faces referencing the same unordered
set of three vertex indices as an already-kept face are dropped. -/
def remove_duplicate_faces {α : Type} (m : Mesh α) : Mesh α :=
  ⟨m.verts, dedupFacesGo [] m.faces⟩

/-- Append a point to the accumulator unless an equal point is present. -/
def addUnique {α : Type} [DecidableEq α] (acc : List (Pt3 α)) (p : Pt3 α) :
    List (Pt3 α) :=
  if p ∈ acc then acc else acc ++ [p]

/-- The distinct vertex positions in first-occurrence order. -/
def uniqueVerts {α : Type} [DecidableEq α] (l : List (Pt3 α)) :
    List (Pt3 α) :=
  l.foldl addUnique []

/-- Index of the first occurrence of a point in a list (0 if absent past
the end, matching a lookup that is only used on members). -/
def vIdx {α : Type} [DecidableEq α] (p : Pt3 α) : List (Pt3 α) → ℕ
  | [] => 0
  | q :: rest => if p = q then 0 else vIdx p rest + 1

/-- `mesh.merge_vertices()`: vertices at the same position are unified
into one vertex and all face indices are remapped accordingly. -/
def merge_vertices {α : Type} [Field α] [DecidableEq α] (m : Mesh α) : Mesh α :=
  let u := uniqueVerts m.verts
  ⟨u, m.faces.map fun f =>
    (vIdx (m.verts.getD f.1 ⟨0, 0, 0⟩) u,
     vIdx (m.verts.getD f.2.1 ⟨0, 0, 0⟩) u,
     vIdx (m.verts.getD f.2.2 ⟨0, 0, 0⟩) u)⟩

/-- The mesh construction and cleanup at the end of `process_panorama`:
`trimesh.Trimesh(vertices, faces, vertex_colors)` is called with the
default `process=True`, so the constructor already merges coincident
vertices at construction time; the source then calls
`remove_degenerate_faces`, `remove_duplicate_faces` and `merge_vertices`
in that order (the trailing explicit merge is a no-op because
construction-time processing has already merged all coincident
vertices). -/
def cleanupMesh {α : Type} [LinearOrderedField α] (m : Mesh α) : Mesh α :=
  merge_vertices
    (remove_duplicate_faces (remove_degenerate_faces (merge_vertices m)))

/-- Round a rational to the nearest integer, ties to even: the rounding
IEEE-754 arithmetic applies to the scaled significand. -/
def roundEven (x : ℚ) : ℤ :=
  if x - ⌊x⌋ < 1 / 2 then ⌊x⌋
  else if 1 / 2 < x - ⌊x⌋ then ⌊x⌋ + 1
  else if ⌊x⌋ % 2 = 0 then ⌊x⌋ else ⌊x⌋ + 1

/-- Round an exact rational to the IEEE-754 binary64 grid: round to
nearest, ties to even, with a 53-bit significand.  The exponent range is
unbounded (no overflow or subnormal handling), which coincides with
binary64 for every magnitude the resize computation can produce.  Each
Python float operation is one correctly rounded binary64 operation, so
`fl` applied to the exact result of an operation models it exactly. -/
def fl (q : ℚ) : ℚ :=
  if q = 0 then 0
  else
    (if q < 0 then -1 else 1) *
      (roundEven (|q| * 2 ^ (52 - Int.log 2 |q|)) : ℚ) *
      2 ^ (Int.log 2 |q| - 52)

/-- The resize step of `process_panorama`:
`ratio = max_resolution / max(image.size)` is one float division and each
dimension becomes `int(dim * ratio)` — one float multiplication truncated
toward zero (the values are nonnegative, so truncation is the floor). -/
def resizeDims (w h maxRes : ℕ) : ℕ × ℕ :=
  if maxRes < max w h then
    ((⌊fl ((w : ℚ) * fl ((maxRes : ℚ) / ((max w h : ℕ) : ℚ)))⌋).toNat,
     (⌊fl ((h : ℚ) * fl ((maxRes : ℚ) / ((max w h : ℕ) : ℚ)))⌋).toNat)
  else (w, h)

/-- `depth.min()`: fold of `min` over all cells (row-major). -/
def gridMin {α : Type} [LinearOrder α] (g : Grid α) : α :=
  (List.range (g.H * g.W)).foldl
    (fun m i => min m (g.val (i / g.W) (i % g.W))) (g.val 0 0)

/-- `depth.max()`: fold of `max` over all cells (row-major). -/
def gridMax {α : Type} [LinearOrder α] (g : Grid α) : α :=
  (List.range (g.H * g.W)).foldl
    (fun m i => max m (g.val (i / g.W) (i % g.W))) (g.val 0 0)

/-- `depth.mean()`: the sum of all cells divided by the cell count. -/
def gridMean {α : Type} [Field α] (g : Grid α) : α :=
  ((List.range (g.H * g.W)).foldl
    (fun acc i => acc + g.val (i / g.W) (i % g.W)) 0) / ((g.H * g.W : ℕ) : α)

/-- The metadata dictionary assembled at the end of `process_panorama`
(the pass-through `device` string is omitted: no claim concerns it). -/
structure Metadata (α : Type) where
  vertices : ℕ
  faces : ℕ
  resolution : String
  depth_min : α
  depth_max : α
  depth_mean : α

/-- `PanoramaProcessor.process_panorama`.  `smoothF` abstracts
`scipy.ndimage.gaussian_filter` (external; only applied when
`smooth_depth` is true) and `depthSource` abstracts
`DepthProcessor.estimate_depth`, receiving the (possibly resized) image
dimensions.  Steps, as in the source: resize, depth estimation, optional
smoothing, spherical projection, triangulation (from the image's shape,
with `mask = ~edge_mask` when `remove_edges`), mesh construction, cleanup,
metadata. -/
def process_panorama {α : Type} [LinearOrderedField α] (c s sq : α → α)
    (piv : α) (smoothF : Grid α → Grid α) (depthSource : ℕ → ℕ → Grid α)
    (w h maxRes : ℕ) (smooth_depth remove_edges : Bool)
    (edge_threshold : α) : Mesh α × Metadata α :=
  let wh := resizeDims w h maxRes
  let depth0 := depthSource wh.1 wh.2
  let depth := if smooth_depth then smoothF depth0 else depth0
  let verts := pano_depth_to_world_points c s piv depth
  let triangles :=
    if remove_edges then
      create_triangles wh.2 wh.1
        (some fun i j => ! depth_edges_mask sq depth edge_threshold i j)
    else create_triangles wh.2 wh.1 none
  let mesh := cleanupMesh ⟨verts, triangles⟩
  (mesh,
   ⟨mesh.verts.length, mesh.faces.length,
    toString wh.1 ++ "x" ++ toString wh.2,
    gridMin depth, gridMax depth, gridMean depth⟩)

example : (create_triangles 4 4 none).length = 18 := by decide

example :
    create_triangles 2 2 (some fun _ _ => false) = [] := by decide

/-! ### Helper lemmas: binary64 rounding and the resize step -/

lemma intLog_eq_of {q : ℚ} {e : ℤ} (hq : 0 < q) (h1 : (2 : ℚ) ^ e ≤ q)
    (h2 : q < (2 : ℚ) ^ (e + 1)) : Int.log 2 q = e := by
  have hc : ((2 : ℕ) : ℚ) = (2 : ℚ) := by norm_num
  have ha : e ≤ Int.log 2 q :=
    (Int.zpow_le_iff_le_log (by norm_num) hq).mp (by rw [hc]; exact h1)
  have hb : Int.log 2 q < e + 1 :=
    (Int.lt_zpow_iff_log_lt (by norm_num) hq).mp (by rw [hc]; exact h2)
  omega

lemma fl_eval_down {q : ℚ} {e m : ℤ} (hq : 0 < q) (he : Int.log 2 q = e)
    (hm : ⌊q * 2 ^ (52 - e)⌋ = m) (hlt : q * 2 ^ (52 - e) - m < 1 / 2) :
    fl q = (m : ℚ) * 2 ^ (e - 52) := by
  rw [fl, if_neg hq.ne', if_neg (not_lt.mpr hq.le), abs_of_pos hq, he,
    roundEven, hm, if_pos hlt, one_mul]

lemma roundEven_le (x : ℚ) : (roundEven x : ℚ) ≤ x + 1 / 2 := by
  have h1 := Int.floor_le x
  have h2 := Int.lt_floor_add_one x
  rw [roundEven]
  split_ifs with ha hb hc <;> push_cast <;> linarith

lemma roundEven_ge (x : ℚ) : x - 1 / 2 ≤ (roundEven x : ℚ) := by
  have h1 := Int.floor_le x
  have h2 := Int.lt_floor_add_one x
  rw [roundEven]
  split_ifs with ha hb hc <;> push_cast <;> linarith

lemma fl_le {q : ℚ} (hq : 0 < q) : fl q ≤ q + q / 2 ^ 53 := by
  rw [fl, if_neg hq.ne', if_neg (not_lt.mpr hq.le), abs_of_pos hq, one_mul]
  set e := Int.log 2 q with he
  have hp : (0 : ℚ) < 2 ^ (e - 52) := zpow_pos (by norm_num) _
  have hb := roundEven_le (q * 2 ^ (52 - e))
  have hle : (2 : ℚ) ^ e ≤ q := by
    have h := Int.zpow_log_le_self (b := 2) (R := ℚ) (by norm_num) hq
    rw [← he] at h
    simpa using h
  have key : (q * 2 ^ (52 - e) + 1 / 2) * 2 ^ (e - 52) =
      q + 2 ^ e / 2 ^ 53 := by
    rw [add_mul, mul_assoc, ← zpow_add₀ (by norm_num : (2 : ℚ) ≠ 0),
      zpow_sub₀ (by norm_num : (2 : ℚ) ≠ 0)]
    norm_num
    ring
  calc (roundEven (q * 2 ^ (52 - e)) : ℚ) * 2 ^ (e - 52)
      ≤ (q * 2 ^ (52 - e) + 1 / 2) * 2 ^ (e - 52) :=
        mul_le_mul_of_nonneg_right hb hp.le
    _ = q + 2 ^ e / 2 ^ 53 := key
    _ ≤ q + q / 2 ^ 53 := by
        have h := (div_le_div_iff_of_pos_right (c := (2 : ℚ) ^ 53)
          (by norm_num)).mpr hle
        linarith

lemma fl_ge {q : ℚ} (hq : 0 < q) : q - q / 2 ^ 53 ≤ fl q := by
  rw [fl, if_neg hq.ne', if_neg (not_lt.mpr hq.le), abs_of_pos hq, one_mul]
  set e := Int.log 2 q with he
  have hp : (0 : ℚ) < 2 ^ (e - 52) := zpow_pos (by norm_num) _
  have hb := roundEven_ge (q * 2 ^ (52 - e))
  have hle : (2 : ℚ) ^ e ≤ q := by
    have h := Int.zpow_log_le_self (b := 2) (R := ℚ) (by norm_num) hq
    rw [← he] at h
    simpa using h
  have key : (q * 2 ^ (52 - e) - 1 / 2) * 2 ^ (e - 52) =
      q - 2 ^ e / 2 ^ 53 := by
    rw [sub_mul, mul_assoc, ← zpow_add₀ (by norm_num : (2 : ℚ) ≠ 0),
      zpow_sub₀ (by norm_num : (2 : ℚ) ≠ 0)]
    norm_num
    ring
  calc q - q / 2 ^ 53
      ≤ q - 2 ^ e / 2 ^ 53 := by
        have h := (div_le_div_iff_of_pos_right (c := (2 : ℚ) ^ 53)
          (by norm_num)).mpr hle
        linarith
    _ = (q * 2 ^ (52 - e) - 1 / 2) * 2 ^ (e - 52) := key.symm
    _ ≤ (roundEven (q * 2 ^ (52 - e)) : ℚ) * 2 ^ (e - 52) :=
        mul_le_mul_of_nonneg_right hb hp.le

lemma fl_nonneg {q : ℚ} (hq : 0 ≤ q) : 0 ≤ fl q := by
  rcases hq.eq_or_lt with h | h
  · rw [← h]
    simp [fl]
  · have h1 := fl_ge h
    have h2 : q / 2 ^ 53 ≤ q := div_le_self h.le (by norm_num)
    linarith

lemma resize_upper {d L M : ℕ} (hd : d ≤ L) (hML : M < L) (hM : M ≤ 2 ^ 50) :
    fl ((d : ℚ) * fl ((M : ℚ) / (L : ℚ))) < (M : ℚ) + 1 := by
  have hL : (0 : ℚ) < L := by
    have h0 : 0 < L := by omega
    exact_mod_cast h0
  rcases Nat.eq_zero_or_pos M with hM0 | hM0
  · subst hM0
    norm_num [fl]
  have hr0 : (0 : ℚ) < (M : ℚ) / L :=
    div_pos (by exact_mod_cast hM0) hL
  set r := fl ((M : ℚ) / L) with hrdef
  have hru : r ≤ (M : ℚ) / L + ((M : ℚ) / L) / 2 ^ 53 := fl_le hr0
  have hrl : 0 ≤ r := fl_nonneg hr0.le
  have hMc : (M : ℚ) ≤ 2 ^ 50 := by exact_mod_cast hM
  have hprod : (d : ℚ) * r ≤ (M : ℚ) + (M : ℚ) / 2 ^ 53 := by
    have h1 : (d : ℚ) * r ≤ (L : ℚ) * r := by
      have hc : (d : ℚ) ≤ (L : ℚ) := by exact_mod_cast hd
      exact mul_le_mul_of_nonneg_right hc hrl
    have h2 : (L : ℚ) * ((M : ℚ) / L + ((M : ℚ) / L) / 2 ^ 53) =
        (M : ℚ) + (M : ℚ) / 2 ^ 53 := by
      field_simp
      ring
    have h3 : (L : ℚ) * r ≤ (L : ℚ) *
        ((M : ℚ) / L + ((M : ℚ) / L) / 2 ^ 53) :=
      mul_le_mul_of_nonneg_left hru hL.le
    linarith
  have hdr : 0 ≤ (d : ℚ) * r := by positivity
  rcases hdr.eq_or_lt with h0 | h0
  · rw [← h0]
    norm_num [fl]
    positivity
  have hv := fl_le h0
  linarith

lemma resize_longer_lower {L M : ℕ} (hML : M < L) (hM0 : 0 < M)
    (hM : M ≤ 2 ^ 50) :
    (M : ℚ) - 1 < fl ((L : ℚ) * fl ((M : ℚ) / (L : ℚ))) := by
  have hL : (0 : ℚ) < L := by
    have h0 : 0 < L := by omega
    exact_mod_cast h0
  have hr0 : (0 : ℚ) < (M : ℚ) / L :=
    div_pos (by exact_mod_cast hM0) hL
  set r := fl ((M : ℚ) / L) with hrdef
  have hru : r ≤ (M : ℚ) / L + ((M : ℚ) / L) / 2 ^ 53 := fl_le hr0
  have hrg : (M : ℚ) / L - ((M : ℚ) / L) / 2 ^ 53 ≤ r := fl_ge hr0
  have hMc : (M : ℚ) ≤ 2 ^ 50 := by exact_mod_cast hM
  have hM1 : (1 : ℚ) ≤ (M : ℚ) := by exact_mod_cast hM0
  have hup : (L : ℚ) * r ≤ (M : ℚ) + (M : ℚ) / 2 ^ 53 := by
    have h2 : (L : ℚ) * ((M : ℚ) / L + ((M : ℚ) / L) / 2 ^ 53) =
        (M : ℚ) + (M : ℚ) / 2 ^ 53 := by
      field_simp
      ring
    have h3 : (L : ℚ) * r ≤ (L : ℚ) *
        ((M : ℚ) / L + ((M : ℚ) / L) / 2 ^ 53) :=
      mul_le_mul_of_nonneg_left hru hL.le
    linarith
  have hlo : (M : ℚ) - (M : ℚ) / 2 ^ 53 ≤ (L : ℚ) * r := by
    have h2 : (L : ℚ) * ((M : ℚ) / L - ((M : ℚ) / L) / 2 ^ 53) =
        (M : ℚ) - (M : ℚ) / 2 ^ 53 := by
      field_simp
      ring
    have h3 : (L : ℚ) * ((M : ℚ) / L - ((M : ℚ) / L) / 2 ^ 53) ≤
        (L : ℚ) * r :=
      mul_le_mul_of_nonneg_left hrg hL.le
    linarith
  have hpos : (0 : ℚ) < (L : ℚ) * r := by linarith
  have hv1 := fl_ge hpos
  have hv2 : ((L : ℚ) * r) / 2 ^ 53 ≤
      ((M : ℚ) + (M : ℚ) / 2 ^ 53) / 2 ^ 53 :=
    (div_le_div_iff_of_pos_right (by norm_num)).mpr hup
  linarith

lemma resizeDims_eval_22_11_15 : resizeDims 22 11 15 = (14, 7) := by
  have hmax : ((max 22 11 : ℕ) : ℚ) = 22 := by norm_num
  have he : Int.log 2 ((15 : ℚ) / 22) = -1 :=
    intLog_eq_of (by norm_num) (by norm_num) (by norm_num)
  have hr : fl ((15 : ℚ) / 22) = 6141272219141585 / 9007199254740992 := by
    rw [fl_eval_down (by norm_num) he (m := 6141272219141585) (by norm_num)
      (by norm_num)]
    norm_num
  have he1 : Int.log 2 ((67553994410557435 : ℚ) / 4503599627370496)
      = 3 := intLog_eq_of (by norm_num) (by norm_num) (by norm_num)
  have h1 : fl ((67553994410557435 : ℚ) / 4503599627370496) =
      8444249301319679 * (2 : ℚ) ^ (3 - 52 : ℤ) :=
    fl_eval_down (by norm_num) he1 (m := 8444249301319679) (by norm_num)
      (by norm_num)
  have he2 : Int.log 2 ((67553994410557435 : ℚ) / 9007199254740992)
      = 2 := intLog_eq_of (by norm_num) (by norm_num) (by norm_num)
  have h2 : fl ((67553994410557435 : ℚ) / 9007199254740992) =
      8444249301319679 * (2 : ℚ) ^ (2 - 52 : ℤ) :=
    fl_eval_down (by norm_num) he2 (m := 8444249301319679) (by norm_num)
      (by norm_num)
  rw [resizeDims, if_pos (by norm_num)]
  rw [hmax]
  norm_num [hr, h1, h2]
  decide

lemma resizeDims_eval_2330_1165_378 : resizeDims 2330 1165 378 = (377, 188) := by
  have hmax : ((max 2330 1165 : ℕ) : ℚ) = 2330 := by norm_num
  have he : Int.log 2 ((189 : ℚ) / 1165) = -3 :=
    intLog_eq_of (by norm_num) (by norm_num) (by norm_num)
  have hr : fl ((189 : ℚ) / 1165) =
      5845015138698875 / 36028797018963968 := by
    rw [fl_eval_down (by norm_num) he (m := 5845015138698875) (by norm_num)
      (by norm_num)]
    norm_num
  have he3 : Int.log 2 ((6809442636584189375 : ℚ) / 18014398509481984)
      = 8 := intLog_eq_of (by norm_num) (by norm_num) (by norm_num)
  have h3 : fl ((6809442636584189375 : ℚ) / 18014398509481984) =
      6649846324789247 * (2 : ℚ) ^ (8 - 52 : ℤ) :=
    fl_eval_down (by norm_num) he3 (m := 6649846324789247) (by norm_num)
      (by norm_num)
  have he4 : Int.log 2 ((6809442636584189375 : ℚ) / 36028797018963968)
      = 7 := intLog_eq_of (by norm_num) (by norm_num) (by norm_num)
  have h4 : fl ((6809442636584189375 : ℚ) / 36028797018963968) =
      6649846324789247 * (2 : ℚ) ^ (7 - 52 : ℤ) :=
    fl_eval_down (by norm_num) he4 (m := 6649846324789247) (by norm_num)
      (by norm_num)
  rw [resizeDims, if_pos (by norm_num)]
  rw [hmax]
  norm_num [hr, h3, h4]
  decide

lemma resizeDims_eval_4000_2000_2000 :
    resizeDims 4000 2000 2000 = (2000, 1000) := by
  have hmax : ((max 4000 2000 : ℕ) : ℚ) = 4000 := by norm_num
  have he5 : Int.log 2 ((1 : ℚ) / 2) = -1 :=
    intLog_eq_of (by norm_num) (by norm_num) (by norm_num)
  have hr : fl ((1 : ℚ) / 2) = 1 / 2 := by
    rw [fl_eval_down (by norm_num) he5 (m := 4503599627370496) (by norm_num)
      (by norm_num)]
    norm_num
  have he6 : Int.log 2 ((2000 : ℚ)) = 10 :=
    intLog_eq_of (by norm_num) (by norm_num) (by norm_num)
  have h6 : fl ((2000 : ℚ)) = 2000 := by
    rw [fl_eval_down (by norm_num) he6 (m := 8796093022208000) (by norm_num)
      (by norm_num)]
    norm_num
  have he7 : Int.log 2 ((1000 : ℚ)) = 9 :=
    intLog_eq_of (by norm_num) (by norm_num) (by norm_num)
  have h7 : fl ((1000 : ℚ)) = 1000 := by
    rw [fl_eval_down (by norm_num) he7 (m := 8796093022208000) (by norm_num)
      (by norm_num)]
    norm_num
  rw [resizeDims, if_pos (by norm_num)]
  rw [hmax]
  norm_num [hr, h6, h7]
  decide

/-! ### Claim theorems C8 and C10 (resize step) -/

/-- C8 counterexample: resizing a 22×11 image with `max_resolution = 15`
yields (14, 7) — the longer side does not equal `max_resolution` exactly,
because `22 * (15 / 22)` computed in binary64 is
14.999999999999998… and `int` truncates it to 14. -/
theorem C8_resize_counterexample :
    resizeDims 22 11 15 = (14, 7) ∧ (resizeDims 22 11 15).1 ≠ 15 := by
  refine ⟨resizeDims_eval_22_11_15, ?_⟩
  rw [resizeDims_eval_22_11_15]
  decide

/-- C8 (amended): when `max (w, h) > max_resolution` the image is
downscaled with both dimensions computed from the common rounded ratio
`fl (M / max w h)`; the longer side comes out as `max_resolution` or
`max_resolution - 1` (the float computation can lose one pixel, as in the
22×11 counterexample), and is exactly `max_resolution` when the float
arithmetic is exact — in particular a 4000×2000 image with
`max_resolution = 2000` is resized to exactly 2000×1000; an image whose
longer side is already ≤ `max_resolution` is not resized.  (The bound
`M ≤ 2 ^ 50` keeps the rounding-error analysis inside the binary64
integer range.) -/
theorem C8_resize_aspect (w h M : ℕ) (hM0 : 0 < M) (hM2 : M ≤ 2 ^ 50) :
    (h ≤ w → M < w →
      ((resizeDims w h M).1 = M - 1 ∨ (resizeDims w h M).1 = M)) ∧
    resizeDims 4000 2000 2000 = (2000, 1000) ∧
    (max w h ≤ M → resizeDims w h M = (w, h)) := by
  refine ⟨?_, resizeDims_eval_4000_2000_2000, ?_⟩
  · intro hhw hMw
    have hmx : max w h = w := max_eq_left hhw
    have hML : M < max w h := by omega
    rw [resizeDims, if_pos hML, hmx]
    have hu : fl ((w : ℚ) * fl ((M : ℚ) / (w : ℚ))) < (M : ℚ) + 1 :=
      resize_upper (le_refl w) hMw hM2
    have hl : (M : ℚ) - 1 < fl ((w : ℚ) * fl ((M : ℚ) / (w : ℚ))) :=
      resize_longer_lower hMw hM0 hM2
    have hfl1 : ⌊fl ((w : ℚ) * fl ((M : ℚ) / (w : ℚ)))⌋ < (M : ℤ) + 1 :=
      Int.floor_lt.mpr (by push_cast; linarith)
    have hfl2 : (M : ℤ) - 1 ≤ ⌊fl ((w : ℚ) * fl ((M : ℚ) / (w : ℚ)))⌋ :=
      Int.le_floor.mpr (by push_cast; linarith)
    simp only [Prod.fst]
    omega
  · intro hle
    rw [resizeDims, if_neg (not_lt.mpr hle)]

theorem C8_resize_aspect_witness :
    (0 < 2000 ∧ 2000 ≤ 2 ^ 50 ∧ 2000 ≤ 4000 ∧ 2000 < 4000) ∧
    ((resizeDims 4000 2000 2000).1 = 2000 - 1 ∨
      (resizeDims 4000 2000 2000).1 = 2000) :=
  ⟨⟨by norm_num, by norm_num, by norm_num, by norm_num⟩,
   (C8_resize_aspect 4000 2000 2000 (by norm_num) (by norm_num)).1
     (by norm_num) (by norm_num)⟩

/-- C10 counterexample: the resized dimensions are not the exact
truncated ratios `(w*M/L, h*M/L)`: a 2330×1165 image at
`max_resolution = 378` resizes to (377, 188) in binary64 arithmetic while
exact ratio scaling gives (378, 189) — both dimensions come out one pixel
smaller than the exact quotient. -/
theorem C10_resize_counterexample :
    resizeDims 2330 1165 378 = (377, 188) ∧
    (resizeDims 2330 1165 378).1 ≠ 2330 * 378 / 2330 ∧
    (resizeDims 2330 1165 378).2 ≠ 1165 * 378 / 2330 := by
  refine ⟨resizeDims_eval_2330_1165_378, ?_, ?_⟩ <;>
    rw [resizeDims_eval_2330_1165_378] <;> decide

/-- C10 (amended): whenever the image is resized, each new dimension is
`int (dim * fl (M / max w h))` computed in binary64 and truncated toward
zero; both results are at most `max_resolution`, but a dimension can come
out one pixel smaller than exact ratio scaling `⌊dim * M / max w h⌋`
would give (at 2330×1165 with `max_resolution = 378` the shorter side is
188 while exact scaling gives 189). -/
theorem C10_resize_truncation (w h M : ℕ) (hM2 : M ≤ 2 ^ 50)
    (hML : M < max w h) :
    resizeDims w h M =
      ((⌊fl ((w : ℚ) * fl ((M : ℚ) / ((max w h : ℕ) : ℚ)))⌋).toNat,
       (⌊fl ((h : ℚ) * fl ((M : ℚ) / ((max w h : ℕ) : ℚ)))⌋).toNat) ∧
    (resizeDims w h M).1 ≤ M ∧ (resizeDims w h M).2 ≤ M ∧
    (resizeDims 2330 1165 378).2 + 1 = 1165 * 378 / 2330 := by
  refine ⟨by rw [resizeDims, if_pos hML], ?_, ?_, ?_⟩
  · rw [resizeDims, if_pos hML]
    have hu : fl ((w : ℚ) * fl ((M : ℚ) / ((max w h : ℕ) : ℚ))) <
        (M : ℚ) + 1 := resize_upper (le_max_left w h) hML hM2
    have hfl : ⌊fl ((w : ℚ) * fl ((M : ℚ) / ((max w h : ℕ) : ℚ)))⌋ <
        (M : ℤ) + 1 := by
      rw [Int.floor_lt]
      push_cast at hu ⊢
      linarith
    simp only [Prod.fst]
    omega
  · rw [resizeDims, if_pos hML]
    have hu : fl ((h : ℚ) * fl ((M : ℚ) / ((max w h : ℕ) : ℚ))) <
        (M : ℚ) + 1 := resize_upper (le_max_right w h) hML hM2
    have hfl : ⌊fl ((h : ℚ) * fl ((M : ℚ) / ((max w h : ℕ) : ℚ)))⌋ <
        (M : ℤ) + 1 := by
      rw [Int.floor_lt]
      push_cast at hu ⊢
      linarith
    simp only [Prod.snd]
    omega
  · rw [resizeDims_eval_2330_1165_378]

theorem C10_resize_truncation_witness :
    (378 ≤ 2 ^ 50 ∧ 378 < max 2330 1165) ∧
    ((resizeDims 2330 1165 378).1 ≤ 378 ∧
      (resizeDims 2330 1165 378).2 ≤ 378) :=
  ⟨⟨by norm_num, by norm_num⟩,
   ⟨(C10_resize_truncation 2330 1165 378 (by norm_num) (by norm_num)).2.1,
    (C10_resize_truncation 2330 1165 378 (by norm_num)
      (by norm_num)).2.2.1⟩⟩

/-! ### Claim theorem C7 (edge mask monotone in the threshold) -/

/-- Number of `true` cells of the edge mask over the grid's index range. -/
def maskTrueCount {α : Type} [LinearOrderedField α] (sq : α → α)
    (g : Grid α) (t : α) : ℕ :=
  (((Finset.range g.H) ×ˢ (Finset.range g.W)).filter
    fun p => depth_edges_mask sq g t p.1 p.2 = true).card

/-- C7: for a fixed depth map and thresholds `t1 ≤ t2`, every cell that is
`true` at threshold `t2` is also `true` at `t1`, and hence the number of
`true` cells at `t2` is at most the number at `t1` (the mask is
monotonically non-increasing in the threshold).  The dimension hypotheses
reflect that `np.gradient` requires at least two samples per axis. -/
theorem C7_mask_monotone (g : Grid ℝ) (t1 t2 : ℝ) (hH : 2 ≤ g.H)
    (hW : 2 ≤ g.W) (ht : t1 ≤ t2) :
    (∀ i j, depth_edges_mask Real.sqrt g t2 i j = true →
      depth_edges_mask Real.sqrt g t1 i j = true) ∧
    maskTrueCount Real.sqrt g t2 ≤ maskTrueCount Real.sqrt g t1 := by
  have hpt : ∀ i j, depth_edges_mask Real.sqrt g t2 i j = true →
      depth_edges_mask Real.sqrt g t1 i j = true := by
    intro i j hm
    simp only [depth_edges_mask, decide_eq_true_eq] at hm ⊢
    exact lt_of_le_of_lt ht hm
  refine ⟨hpt, Finset.card_le_card ?_⟩
  intro p hp
  rw [Finset.mem_filter] at hp ⊢
  exact ⟨hp.1, hpt _ _ hp.2⟩

theorem C7_mask_monotone_witness :
    2 ≤ (Grid.mk 2 2 (fun _ _ => (0 : ℝ))).H ∧
    2 ≤ (Grid.mk 2 2 (fun _ _ => (0 : ℝ))).W ∧
    (0 : ℝ) ≤ 1 ∧
    ((∀ i j,
      depth_edges_mask Real.sqrt (Grid.mk 2 2 (fun _ _ => (0 : ℝ))) 1 i j = true →
      depth_edges_mask Real.sqrt (Grid.mk 2 2 (fun _ _ => (0 : ℝ))) 0 i j = true) ∧
     maskTrueCount Real.sqrt (Grid.mk 2 2 (fun _ _ => (0 : ℝ))) 1 ≤
       maskTrueCount Real.sqrt (Grid.mk 2 2 (fun _ _ => (0 : ℝ))) 0) :=
  ⟨by norm_num, by norm_num, by norm_num,
   C7_mask_monotone _ 0 1 (by norm_num) (by norm_num) (by norm_num)⟩

/-! ### Helper lemmas: spherical projection -/

lemma pano_length {α : Type} [Field α] (c s : α → α) (piv : α) (g : Grid α) :
    (pano_depth_to_world_points c s piv g).length = g.H * g.W := by
  simp [pano_depth_to_world_points]

lemma pano_getD {α : Type} [Field α] (c s : α → α) (piv : α) (g : Grid α)
    {row col : ℕ} (hr : row < g.H) (hc : col < g.W) :
    (pano_depth_to_world_points c s piv g).getD (row * g.W + col) ⟨0, 0, 0⟩ =
      ⟨g.val row col * c (linspaceAt (-(piv / 2)) (piv / 2) g.H row) *
         c (linspaceAt (-piv) piv g.W col),
       g.val row col * c (linspaceAt (-(piv / 2)) (piv / 2) g.H row) *
         s (linspaceAt (-piv) piv g.W col),
       g.val row col * s (linspaceAt (-(piv / 2)) (piv / 2) g.H row)⟩ := by
  have hW0 : 0 < g.W := lt_of_le_of_lt (Nat.zero_le _) hc
  have hidx : row * g.W + col < g.H * g.W := by
    calc row * g.W + col < row * g.W + g.W := by omega
      _ = (row + 1) * g.W := by ring
      _ ≤ g.H * g.W := Nat.mul_le_mul_right _ (by omega)
  have hdiv : (row * g.W + col) / g.W = row := by
    rw [add_comm, Nat.add_mul_div_right _ _ hW0, Nat.div_eq_of_lt hc]
    omega
  have hmod : (row * g.W + col) % g.W = col := by
    rw [add_comm, Nat.add_mul_mod_self_right, Nat.mod_eq_of_lt hc]
  rw [pano_depth_to_world_points, List.getD_eq_getElem?_getD,
    List.getElem?_map, List.getElem?_range hidx]
  simp [hdiv, hmod]

/-! ### Claim theorem C6 (projection shape and indexing) -/

/-- C6: for a depth map of `H` rows and `W` columns (`H, W ≥ 2`),
`pano_depth_to_world_points` returns exactly `W*H` points in row-major
order: the point at flat index `row*W + col` is computed from
`depth[row][col]` with longitude `-π + col * (2π/(W-1))` (linear from -π
to +π across columns) and latitude `-π/2 + row * (π/(H-1))` (linear from
-π/2 to +π/2 down rows), via `x = r cos lat cos lon`,
`y = r cos lat sin lon`, `z = r sin lat`. -/
theorem C6_projection_indexing (g : Grid ℝ) (row col : ℕ) (hH : 2 ≤ g.H)
    (hW : 2 ≤ g.W) (hr : row < g.H) (hc : col < g.W) :
    (pano_depth_to_world_points Real.cos Real.sin Real.pi g).length =
      g.W * g.H ∧
    (pano_depth_to_world_points Real.cos Real.sin Real.pi g).getD
        (row * g.W + col) ⟨0, 0, 0⟩ =
      ⟨g.val row col *
         Real.cos (-(Real.pi / 2) + row * (Real.pi / ((g.H : ℝ) - 1))) *
         Real.cos (-Real.pi + col * (2 * Real.pi / ((g.W : ℝ) - 1))),
       g.val row col *
         Real.cos (-(Real.pi / 2) + row * (Real.pi / ((g.H : ℝ) - 1))) *
         Real.sin (-Real.pi + col * (2 * Real.pi / ((g.W : ℝ) - 1))),
       g.val row col *
         Real.sin (-(Real.pi / 2) + row * (Real.pi / ((g.H : ℝ) - 1)))⟩ := by
  constructor
  · rw [pano_length]
    exact Nat.mul_comm _ _
  · rw [pano_getD _ _ _ _ hr hc]
    have hWc : ((g.W - 1 : ℕ) : ℝ) = (g.W : ℝ) - 1 := by
      have h1 : 1 ≤ g.W := by omega
      push_cast [h1]
      ring
    have hHc : ((g.H - 1 : ℕ) : ℝ) = (g.H : ℝ) - 1 := by
      have h1 : 1 ≤ g.H := by omega
      push_cast [h1]
      ring
    have e1 : linspaceAt (-Real.pi) Real.pi g.W col =
        -Real.pi + col * (2 * Real.pi / ((g.W : ℝ) - 1)) := by
      rw [linspaceAt, if_neg (by omega), hWc]
      ring
    have e2 : linspaceAt (-(Real.pi / 2)) (Real.pi / 2) g.H row =
        -(Real.pi / 2) + row * (Real.pi / ((g.H : ℝ) - 1)) := by
      rw [linspaceAt, if_neg (by omega), hHc]
      ring
    rw [e1, e2]

theorem C6_projection_indexing_witness :
    2 ≤ (Grid.mk 2 3 (fun _ _ => (1 : ℝ))).H ∧
    2 ≤ (Grid.mk 2 3 (fun _ _ => (1 : ℝ))).W ∧
    1 < (Grid.mk 2 3 (fun _ _ => (1 : ℝ))).H ∧
    2 < (Grid.mk 2 3 (fun _ _ => (1 : ℝ))).W ∧
    (pano_depth_to_world_points Real.cos Real.sin Real.pi
      (Grid.mk 2 3 (fun _ _ => (1 : ℝ)))).length = 3 * 2 :=
  ⟨by norm_num, by norm_num, by norm_num, by norm_num,
   (C6_projection_indexing (Grid.mk 2 3 (fun _ _ => (1 : ℝ))) 1 2
     (by norm_num) (by norm_num) (by norm_num) (by norm_num)).1⟩

/-! ### Claim theorem C9 (constant depth: sphere radius and empty mask) -/

/-- C9: for a constant depth map of value `r ≥ 0`, every point returned by
`pano_depth_to_world_points` has Euclidean norm exactly `r`; and the edge
mask of a constant depth map is all-`false` for every threshold `t ≥ 0`
(including `t = 0`): the gradient magnitude is exactly `sqrt 0 = 0` and
the comparison is strict. -/
theorem C9_constant_depth_sphere :
    (∀ (Hd Wd : ℕ) (r : ℝ), 0 ≤ r →
      ∀ p ∈ pano_depth_to_world_points Real.cos Real.sin Real.pi
          (Grid.mk Hd Wd fun _ _ => r),
        Real.sqrt (p.x ^ 2 + p.y ^ 2 + p.z ^ 2) = r) ∧
    (∀ (Hd Wd : ℕ) (r t : ℝ), 2 ≤ Hd → 2 ≤ Wd → 0 ≤ t → ∀ i j,
      depth_edges_mask Real.sqrt (Grid.mk Hd Wd fun _ _ => r) t i j =
        false) := by
  constructor
  · intro Hd Wd r hr p hp
    simp only [pano_depth_to_world_points, List.mem_map,
      List.mem_range] at hp
    obtain ⟨i, _, rfl⟩ := hp
    set lon := linspaceAt (-Real.pi) Real.pi Wd (i % Wd) with hlon
    set lat := linspaceAt (-(Real.pi / 2)) (Real.pi / 2) Hd (i / Wd)
      with hlat
    have h1 := Real.sin_sq_add_cos_sq lon
    have h2 := Real.sin_sq_add_cos_sq lat
    have key : (r * Real.cos lat * Real.cos lon) ^ 2 +
        (r * Real.cos lat * Real.sin lon) ^ 2 +
        (r * Real.sin lat) ^ 2 = r ^ 2 := by
      linear_combination (r ^ 2 * (Real.cos lat) ^ 2) * h1 + r ^ 2 * h2
    simpa [key] using Real.sqrt_sq hr
  · intro Hd Wd r t hH hW ht i j
    have hg0 : npGradient0 (Grid.mk Hd Wd fun _ _ => r) i j = 0 := by
      rw [npGradient0]
      split_ifs <;> simp
    have hg1 : npGradient1 (Grid.mk Hd Wd fun _ _ => r) i j = 0 := by
      rw [npGradient1]
      split_ifs <;> simp
    rw [depth_edges_mask, hg0, hg1, decide_eq_false_iff_not]
    norm_num [Real.sqrt_zero]
    exact ht

theorem C9_constant_depth_sphere_witness :
    (0 : ℝ) ≤ 2 ∧
    (∀ p ∈ pano_depth_to_world_points Real.cos Real.sin Real.pi
        (Grid.mk 4 4 fun _ _ => (2 : ℝ)),
      Real.sqrt (p.x ^ 2 + p.y ^ 2 + p.z ^ 2) = 2) ∧
    (∀ i j, depth_edges_mask Real.sqrt (Grid.mk 4 4 fun _ _ => (2 : ℝ))
      0 i j = false) :=
  ⟨by norm_num,
   C9_constant_depth_sphere.1 4 4 2 (by norm_num),
   C9_constant_depth_sphere.2 4 4 2 0 (by norm_num) (by norm_num)
     (by norm_num)⟩

/-! ### Helper lemmas: triangulation -/

/-- The two triangles emitted for quad `(r, c)` on a width-`W` grid. -/
def quadTris (r c W : ℕ) : List (ℕ × ℕ × ℕ) :=
  [(r * W + c, r * W + c + W, r * W + c + 1),
   (r * W + c + 1, r * W + c + W, r * W + c + W + 1)]

lemma mem_if_nil {β : Type} {P : Prop} [Decidable P] {a : β} {l : List β} :
    (a ∈ if P then l else []) ↔ P ∧ a ∈ l := by
  split <;> simp_all

lemma mem_create_triangles_some {Hh Ww : ℕ} {m : ℕ → ℕ → Bool}
    {T : ℕ × ℕ × ℕ} :
    T ∈ create_triangles Hh Ww (some m) ↔
      ∃ r, r < Hh - 1 ∧ ∃ c, c < Ww - 1 ∧
        (m r c && m r (c + 1) && m (r + 1) c && m (r + 1) (c + 1)) = true ∧
        T ∈ quadTris r c Ww := by
  simp only [create_triangles, quadTris, List.mem_flatMap, List.mem_range,
    mem_if_nil]

lemma flat_inj {r c r' c' W : ℕ} (hc : c < W) (hc' : c' < W)
    (h : r * W + c = r' * W + c') : r = r' ∧ c = c' := by
  have hW : 0 < W := by omega
  have d1 : (r * W + c) / W = r := by
    rw [add_comm, Nat.add_mul_div_right _ _ hW, Nat.div_eq_of_lt hc]
    omega
  have d2 : (r' * W + c') / W = r' := by
    rw [add_comm, Nat.add_mul_div_right _ _ hW, Nat.div_eq_of_lt hc']
    omega
  have m1 : (r * W + c) % W = c := by
    rw [add_comm, Nat.add_mul_mod_self_right, Nat.mod_eq_of_lt hc]
  have m2 : (r' * W + c') % W = c' := by
    rw [add_comm, Nat.add_mul_mod_self_right, Nat.mod_eq_of_lt hc']
  constructor
  · rw [← d1, ← d2, h]
  · rw [← m1, ← m2, h]

lemma quadTris_inj {r c r' c' W : ℕ} {T : ℕ × ℕ × ℕ} (hc : c < W - 1)
    (hc' : c' < W - 1) (h1 : T ∈ quadTris r c W)
    (h2 : T ∈ quadTris r' c' W) : r = r' ∧ c = c' := by
  have hW : 2 ≤ W := by omega
  have key : r * W + c = r' * W + c' → r = r' ∧ c = c' := fun h =>
    flat_inj (by omega) (by omega) h
  simp only [quadTris, List.mem_cons, List.not_mem_nil, or_false,
    List.mem_singleton] at h1 h2
  rcases h1 with h1 | h1 <;> rcases h2 with h2 | h2 <;> rw [h1] at h2 <;>
      simp only [Prod.mk.injEq] at h2
  · exact key h2.1
  · exfalso
    obtain ⟨e1, e2, e3⟩ := h2
    omega
  · exfalso
    obtain ⟨e1, e2, e3⟩ := h2
    omega
  · exact key (by omega)

lemma not_mem_create_of_excluded {Hh Ww : ℕ} {ex : ℕ → ℕ → Bool} {r c : ℕ}
    (hc : c < Ww - 1)
    (hmask : ex r c = true ∨ ex r (c + 1) = true ∨ ex (r + 1) c = true ∨
      ex (r + 1) (c + 1) = true)
    {T : ℕ × ℕ × ℕ} (hT : T ∈ quadTris r c Ww) :
    T ∉ create_triangles Hh Ww (some fun i j => ! ex i j) := by
  intro hmem
  rw [mem_create_triangles_some] at hmem
  obtain ⟨r', hr', c', hc', hkeep, hT'⟩ := hmem
  obtain ⟨hre, hce⟩ := quadTris_inj hc hc' hT hT'
  subst hre
  subst hce
  simp only [Bool.and_eq_true, Bool.not_eq_true'] at hkeep
  rcases hmask with h | h | h | h <;> simp_all

lemma create_length_all_true {Hh Ww : ℕ} {m : ℕ → ℕ → Bool}
    (hm : ∀ i j, m i j = true) :
    (create_triangles Hh Ww (some m)).length = 2 * (Hh - 1) * (Ww - 1) := by
  rw [create_triangles]
  simp only [hm, Bool.and_self, if_true]
  rw [List.length_flatMap]
  have hinner : ∀ r : ℕ,
      ((List.range (Ww - 1)).flatMap fun c =>
        [(r * Ww + c, r * Ww + c + Ww, r * Ww + c + 1),
         (r * Ww + c + 1, r * Ww + c + Ww, r * Ww + c + Ww + 1)]).length =
      2 * (Ww - 1) := by
    intro r
    rw [List.length_flatMap]
    induction Ww - 1 with
    | zero => simp
    | succ n ih =>
        rw [List.range_succ]
        simp only [List.map_append, List.sum_append]
        rw [ih]
        simp
        ring
  induction Hh - 1 with
  | zero => simp
  | succ n ih =>
      rw [List.range_succ]
      simp only [List.map_append, List.sum_append]
      rw [ih]
      simp [hinner]
      ring

/-! ### Claim theorem C1 (triangulation exclusion, modelled from the spec) -/

/-- C1 (spec-modelled triangulator): with an exclusion mask, a quad is
skipped entirely — neither of its two triangles appears in the output —
as soon as any of its four corner cells is `true`; for a mask with exactly
one `true` cell no emitted triangle belongs to any of the up-to-4 quads
having that cell as a corner; and with an all-`false` exclusion mask
exactly `2*(H-1)*(W-1)` triangles are emitted. -/
theorem C1_triangulation_exclusion (Hh Ww : ℕ) (ex : ℕ → ℕ → Bool) :
    (∀ r c, r < Hh - 1 → c < Ww - 1 →
      (ex r c = true ∨ ex r (c + 1) = true ∨ ex (r + 1) c = true ∨
        ex (r + 1) (c + 1) = true) →
      ∀ T ∈ quadTris r c Ww,
        T ∉ create_triangles Hh Ww (some fun i j => ! ex i j)) ∧
    (∀ cr cc, (∀ i j, ex i j = true ↔ i = cr ∧ j = cc) →
      ∀ r c, r < Hh - 1 → c < Ww - 1 →
        (cr = r ∨ cr = r + 1) → (cc = c ∨ cc = c + 1) →
        ∀ T ∈ quadTris r c Ww,
          T ∉ create_triangles Hh Ww (some fun i j => ! ex i j)) ∧
    (∀ ex0 : ℕ → ℕ → Bool, (∀ i j, ex0 i j = false) →
      (create_triangles Hh Ww (some fun i j => ! ex0 i j)).length =
        2 * (Hh - 1) * (Ww - 1)) := by
  refine ⟨fun r c _ hc hmask T hT =>
    not_mem_create_of_excluded hc hmask hT, ?_, ?_⟩
  · intro cr cc hex r c hr hc hcr hcc T hT
    have hcell : ex cr cc = true := (hex cr cc).mpr ⟨rfl, rfl⟩
    refine not_mem_create_of_excluded hc ?_ hT
    rcases hcr with rfl | rfl <;> rcases hcc with rfl | rfl
    · exact Or.inl hcell
    · exact Or.inr (Or.inl hcell)
    · exact Or.inr (Or.inr (Or.inl hcell))
    · exact Or.inr (Or.inr (Or.inr hcell))
  · intro ex0 hex0
    exact create_length_all_true (fun i j => by simp [hex0])

theorem C1_triangulation_exclusion_witness :
    (1 < 3 - 1 ∧ 1 < 3 - 1 ∧
      ((fun i j : ℕ => decide (i = 1 ∧ j = 1)) 1 1 = true ∨
       (fun i j : ℕ => decide (i = 1 ∧ j = 1)) 1 2 = true ∨
       (fun i j : ℕ => decide (i = 1 ∧ j = 1)) 2 1 = true ∨
       (fun i j : ℕ => decide (i = 1 ∧ j = 1)) 2 2 = true) ∧
      (4, 7, 5) ∈ quadTris 1 1 3) ∧
    (4, 7, 5) ∉ create_triangles 3 3
      (some fun i j => ! (fun i j : ℕ => decide (i = 1 ∧ j = 1)) i j) ∧
    (create_triangles 3 3 (some fun i j =>
      ! (fun _ _ : ℕ => false) i j)).length = 2 * (3 - 1) * (3 - 1) :=
  ⟨⟨by decide, by decide, by decide, by decide⟩,
   (C1_triangulation_exclusion 3 3 (fun i j => decide (i = 1 ∧ j = 1))).1
     1 1 (by decide) (by decide) (by decide) (4, 7, 5) (by decide),
   (C1_triangulation_exclusion 3 3 (fun i j => decide (i = 1 ∧ j = 1))).2.2
     (fun _ _ => false) (fun _ _ => rfl)⟩

/-! ### Helper lemmas: mesh cleanup -/

lemma mem_foldl_addUnique {α : Type} [DecidableEq α] (l acc : List (Pt3 α))
    (p : Pt3 α) : p ∈ l.foldl addUnique acc ↔ p ∈ acc ∨ p ∈ l := by
  induction l generalizing acc with
  | nil => simp
  | cons a t ih =>
      rw [List.foldl_cons, ih]
      by_cases h : a ∈ acc
      · simp only [addUnique, if_pos h, List.mem_cons]
        constructor
        · exact fun h' => h'.imp_right Or.inr
        · rintro (hp | rfl | hp)
          · exact Or.inl hp
          · exact Or.inl h
          · exact Or.inr hp
      · simp only [addUnique, if_neg h, List.mem_append,
          List.mem_singleton, List.mem_cons]
        tauto

lemma length_foldl_addUnique {α : Type} [DecidableEq α]
    (l acc : List (Pt3 α)) :
    (l.foldl addUnique acc).length ≤ acc.length + l.length := by
  induction l generalizing acc with
  | nil => simp
  | cons a t ih =>
      rw [List.foldl_cons]
      refine le_trans (ih _) ?_
      have h1 : (addUnique acc a).length ≤ acc.length + 1 := by
        rw [addUnique]
        split <;> simp
      simp only [List.length_cons]
      omega

lemma vIdx_lt_length {α : Type} [DecidableEq α] {p : Pt3 α}
    {l : List (Pt3 α)} (h : p ∈ l) : vIdx p l < l.length := by
  induction l with
  | nil => simp at h
  | cons q t ih =>
      rw [vIdx]
      split
      · simp
      · rename_i hne
        have hp : p ∈ t := by
          rcases List.mem_cons.mp h with h1 | h1
          · exact absurd h1 hne
          · exact h1
        simpa [List.length_cons] using Nat.succ_lt_succ (ih hp)

lemma getD_vIdx {α : Type} [DecidableEq α] {p : Pt3 α} {l : List (Pt3 α)}
    (h : p ∈ l) (d : Pt3 α) : l.getD (vIdx p l) d = p := by
  induction l with
  | nil => simp at h
  | cons q t ih =>
      rw [vIdx]
      split
      · rename_i he
        simp [he]
      · rename_i hne
        have hp : p ∈ t := by
          rcases List.mem_cons.mp h with h1 | h1
          · exact absurd h1 hne
          · exact h1
        rw [List.getD_cons_succ]
        exact ih hp

lemma cross_eq_zero_of_eq {α : Type} [Field α] {p q r : Pt3 α}
    (h : p = q ∨ p = r ∨ q = r) :
    Pt3.cross (Pt3.sub q p) (Pt3.sub r p) = (⟨0, 0, 0⟩ : Pt3 α) := by
  rcases h with rfl | rfl | rfl <;>
    (simp only [Pt3.cross, Pt3.sub, Pt3.mk.injEq]
     refine ⟨by ring, by ring, by ring⟩)

lemma dedupFacesGo_subset :
    ∀ (l seen : List (ℕ × ℕ × ℕ)), ∀ f ∈ dedupFacesGo seen l, f ∈ l := by
  intro l
  induction l with
  | nil => intro seen f hf; simp [dedupFacesGo] at hf
  | cons a t ih =>
      intro seen f hf
      rw [dedupFacesGo] at hf
      split at hf
      · exact List.mem_cons_of_mem _ (ih seen f hf)
      · rcases List.mem_cons.mp hf with rfl | hf'
        · exact List.mem_cons_self _ _
        · exact List.mem_cons_of_mem _ (ih _ f hf')

lemma dedupFacesGo_key_not_seen :
    ∀ (l seen : List (ℕ × ℕ × ℕ)), ∀ f ∈ dedupFacesGo seen l,
      sortKey3 f ∉ seen := by
  intro l
  induction l with
  | nil => intro seen f hf; simp [dedupFacesGo] at hf
  | cons a t ih =>
      intro seen f hf
      rw [dedupFacesGo] at hf
      split at hf
      · exact ih seen f hf
      · rcases List.mem_cons.mp hf with rfl | hf'
        · assumption
        · intro hmem
          exact ih _ f hf' (List.mem_cons_of_mem _ hmem)

lemma dedupFacesGo_pairwise :
    ∀ (l seen : List (ℕ × ℕ × ℕ)),
      (dedupFacesGo seen l).Pairwise fun f g => sortKey3 f ≠ sortKey3 g := by
  intro l
  induction l with
  | nil => intro seen; simp [dedupFacesGo]
  | cons a t ih =>
      intro seen
      rw [dedupFacesGo]
      split
      · exact ih seen
      · refine List.Pairwise.cons ?_ (ih _)
        intro g hg heq
        exact dedupFacesGo_key_not_seen _ _ g hg
          (heq ▸ List.mem_cons_self _ _)

/-! ### Further cleanup lemmas: merging is idempotent -/

lemma nodup_foldl_addUnique {α : Type} [DecidableEq α]
    (l : List (Pt3 α)) : ∀ acc : List (Pt3 α), acc.Nodup →
    (l.foldl addUnique acc).Nodup := by
  induction l with
  | nil => intro acc h; simpa
  | cons a t ih =>
      intro acc h
      rw [List.foldl_cons]
      apply ih
      rw [addUnique]
      split
      · exact h
      · rename_i hna
        rw [List.nodup_append]
        refine ⟨h, List.nodup_singleton a, ?_⟩
        intro x hx hxa
        rw [List.mem_singleton] at hxa
        subst hxa
        exact hna hx

lemma uniqueVerts_nodup {α : Type} [DecidableEq α] (l : List (Pt3 α)) :
    (uniqueVerts l).Nodup :=
  nodup_foldl_addUnique l [] List.nodup_nil

lemma foldl_addUnique_eq_of_nodup {α : Type} [DecidableEq α] :
    ∀ (l acc : List (Pt3 α)), (acc ++ l).Nodup →
      l.foldl addUnique acc = acc ++ l := by
  intro l
  induction l with
  | nil => intro acc _; simp
  | cons a t ih =>
      intro acc h
      rw [List.foldl_cons, addUnique]
      have hna : a ∉ acc := by
        intro hmem
        rw [List.nodup_append] at h
        exact h.2.2 hmem (List.mem_cons_self a t)
      rw [if_neg hna]
      have h' : ((acc ++ [a]) ++ t).Nodup := by
        rw [List.append_assoc, List.singleton_append]
        exact h
      rw [ih (acc ++ [a]) h', List.append_assoc, List.singleton_append]

lemma uniqueVerts_eq_self_of_nodup {α : Type} [DecidableEq α]
    {l : List (Pt3 α)} (h : l.Nodup) : uniqueVerts l = l := by
  have h0 := foldl_addUnique_eq_of_nodup l [] (by simpa)
  simpa [uniqueVerts] using h0

lemma vIdx_getD_of_nodup {α : Type} [DecidableEq α] :
    ∀ {l : List (Pt3 α)}, l.Nodup → ∀ {i : ℕ}, i < l.length →
      ∀ d : Pt3 α, vIdx (l.getD i d) l = i := by
  intro l
  induction l with
  | nil => intro _ i hi; simp at hi
  | cons q t ih =>
      intro h i hi d
      cases i with
      | zero => simp [vIdx]
      | succ n =>
          rw [List.getD_cons_succ, vIdx]
          have hn : n < t.length := by simpa using hi
          have hmem : t.getD n d ∈ t := by
            rw [List.getD_eq_getElem?_getD, List.getElem?_eq_getElem hn]
            exact List.getElem_mem _
          have hq : ¬ t.getD n d = q := by
            intro he
            exact (List.nodup_cons.mp h).1 (he ▸ hmem)
          rw [if_neg hq, ih (List.nodup_cons.mp h).2 hn d]

lemma merge_vertices_eq_self {α : Type} [Field α] [DecidableEq α]
    (m : Mesh α) (hnd : m.verts.Nodup)
    (hv : ∀ f ∈ m.faces, f.1 < m.verts.length ∧
      f.2.1 < m.verts.length ∧ f.2.2 < m.verts.length) :
    merge_vertices m = m := by
  obtain ⟨verts, faces⟩ := m
  simp only at hnd hv
  rw [merge_vertices]
  simp only
  have hu : uniqueVerts verts = verts := uniqueVerts_eq_self_of_nodup hnd
  rw [hu]
  congr 1
  have hmap : ∀ f ∈ faces,
      (vIdx (verts.getD f.1 ⟨0, 0, 0⟩) verts,
       vIdx (verts.getD f.2.1 ⟨0, 0, 0⟩) verts,
       vIdx (verts.getD f.2.2 ⟨0, 0, 0⟩) verts) = f := by
    intro f hf
    obtain ⟨h1, h2, h3⟩ := hv f hf
    rw [vIdx_getD_of_nodup hnd h1, vIdx_getD_of_nodup hnd h2,
      vIdx_getD_of_nodup hnd h3]
  calc faces.map _ = faces.map id := List.map_congr_left hmap
    _ = faces := List.map_id faces

/-! ### Claim theorem C3 (cleanup post-conditions) -/

/-- C3: after the cleanup pass — the construction-time vertex merge of
`trimesh.Trimesh(process=True)` followed by degenerate-face removal,
duplicate-face removal, and the explicit (now idempotent) vertex merge —
every triangle index is in range of the vertex array, no triangle has two
identical vertex indices, no two triangles reference the same unordered
triple of vertex indices, and the vertex count is at most the original
vertex count. -/
theorem C3_cleanup_postconditions (m : Mesh ℝ)
    (hv : ∀ f ∈ m.faces, f.1 < m.verts.length ∧
      f.2.1 < m.verts.length ∧ f.2.2 < m.verts.length) :
    (∀ f ∈ (cleanupMesh m).faces,
      f.1 < (cleanupMesh m).verts.length ∧
      f.2.1 < (cleanupMesh m).verts.length ∧
      f.2.2 < (cleanupMesh m).verts.length) ∧
    (∀ f ∈ (cleanupMesh m).faces,
      f.1 ≠ f.2.1 ∧ f.1 ≠ f.2.2 ∧ f.2.1 ≠ f.2.2) ∧
    ((cleanupMesh m).faces.Pairwise
      fun f g => sortKey3 f ≠ sortKey3 g) ∧
    (cleanupMesh m).verts.length ≤ m.verts.length := by
  have hmemu : ∀ {a : ℕ}, a < m.verts.length →
      m.verts.getD a ⟨0, 0, 0⟩ ∈ uniqueVerts m.verts := by
    intro a ha
    have hmem : m.verts.getD a ⟨0, 0, 0⟩ ∈ m.verts := by
      rw [List.getD_eq_getElem?_getD, List.getElem?_eq_getElem ha]
      exact List.getElem_mem _
    rw [uniqueVerts, mem_foldl_addUnique]
    exact Or.inr hmem
  have hvalid1 : ∀ f ∈ (merge_vertices m).faces,
      f.1 < (uniqueVerts m.verts).length ∧
      f.2.1 < (uniqueVerts m.verts).length ∧
      f.2.2 < (uniqueVerts m.verts).length := by
    intro f hf
    rw [merge_vertices] at hf
    simp only [List.mem_map] at hf
    obtain ⟨f0, hf0, rfl⟩ := hf
    obtain ⟨h1, h2, h3⟩ := hv f0 hf0
    exact ⟨vIdx_lt_length (hmemu h1), vIdx_lt_length (hmemu h2),
      vIdx_lt_length (hmemu h3)⟩
  have hsub : ∀ f ∈ (remove_duplicate_faces
      (remove_degenerate_faces (merge_vertices m))).faces,
      f ∈ (merge_vertices m).faces ∧
      faceDegenerate (uniqueVerts m.verts) f = false := by
    intro f hf
    have h1 : f ∈ (remove_degenerate_faces (merge_vertices m)).faces :=
      dedupFacesGo_subset _ _ f hf
    rw [remove_degenerate_faces] at h1
    have h2 := List.mem_filter.mp h1
    exact ⟨h2.1, by simpa using h2.2⟩
  have hfin : cleanupMesh m =
      remove_duplicate_faces (remove_degenerate_faces (merge_vertices m)) := by
    rw [cleanupMesh]
    apply merge_vertices_eq_self
    · exact uniqueVerts_nodup m.verts
    · intro f hf
      exact hvalid1 f (hsub f hf).1
  refine ⟨?_, ?_, ?_, ?_⟩
  · intro f hf
    rw [hfin] at hf ⊢
    exact hvalid1 f (hsub f hf).1
  · intro f hf
    rw [hfin] at hf
    obtain ⟨_, hnd⟩ := hsub f hf
    rw [faceDegenerate, decide_eq_false_iff_not] at hnd
    refine ⟨?_, ?_, ?_⟩ <;> intro he <;> apply hnd <;>
      apply cross_eq_zero_of_eq
    · exact Or.inl (by rw [he])
    · exact Or.inr (Or.inl (by rw [he]))
    · exact Or.inr (Or.inr (by rw [he]))
  · rw [hfin]
    exact dedupFacesGo_pairwise _ _
  · rw [hfin]
    simpa [uniqueVerts] using length_foldl_addUnique m.verts []

/-- A mesh whose two faces are index-distinct but reference pairwise
equal positions: vertices 3, 4, 5 duplicate vertices 0, 1, 2.  The
construction-time merge unifies them, and duplicate-face removal then
drops the second face. -/
def dupMesh : Mesh ℝ :=
  ⟨[⟨0, 0, 0⟩, ⟨1, 0, 0⟩, ⟨0, 1, 0⟩, ⟨0, 0, 0⟩, ⟨1, 0, 0⟩, ⟨0, 1, 0⟩],
   [(0, 1, 2), (3, 4, 5)]⟩

theorem C3_cleanup_postconditions_witness :
    (∀ f ∈ dupMesh.faces, f.1 < dupMesh.verts.length ∧
      f.2.1 < dupMesh.verts.length ∧ f.2.2 < dupMesh.verts.length) ∧
    ((cleanupMesh dupMesh).faces.Pairwise
      fun f g => sortKey3 f ≠ sortKey3 g) ∧
    (cleanupMesh dupMesh).verts.length ≤ dupMesh.verts.length :=
  ⟨by decide,
   (C3_cleanup_postconditions dupMesh (by decide)).2.2.1,
   (C3_cleanup_postconditions dupMesh (by decide)).2.2.2⟩

/-! ### Claim C4 (no GeometryError exists in the code) -/

lemma C4_pipeline_eval :
    process_panorama Real.cos Real.sin Real.sqrt Real.pi id
      (fun _ _ => Grid.mk 1 3 fun _ _ => (1 : ℝ)) 3 1 2048 false false
      (3 / 100) =
    (⟨[⟨0, 0, -1⟩], []⟩, ⟨1, 0, "3x1", 1, 1, 1⟩) := by
  have hrs : resizeDims 3 1 2048 = (3, 1) := by
    norm_num [resizeDims]
  have hr : List.range (1 * 3) = [0, 1, 2] := rfl
  have hverts : pano_depth_to_world_points Real.cos Real.sin Real.pi
      (Grid.mk 1 3 fun _ _ => (1 : ℝ)) =
      [⟨0, 0, -1⟩, ⟨0, 0, -1⟩, ⟨0, 0, -1⟩] := by
    rw [pano_depth_to_world_points]
    simp only [hr, List.map]
    norm_num [linspaceAt, Real.cos_pi_div_two, Real.sin_pi_div_two,
      Pt3.mk.injEq]
  have hcln : cleanupMesh (Mesh.mk
      [(⟨0, 0, -1⟩ : Pt3 ℝ), ⟨0, 0, -1⟩, ⟨0, 0, -1⟩] []) =
      ⟨[⟨0, 0, -1⟩], []⟩ := by
    norm_num [cleanupMesh, remove_degenerate_faces, remove_duplicate_faces,
      merge_vertices, dedupFacesGo, uniqueVerts, addUnique, List.foldl,
      Mesh.mk.injEq, List.filter]
  have hmin : gridMin (Grid.mk 1 3 fun _ _ => (1 : ℝ)) = 1 := by
    rw [gridMin]
    simp only [hr, List.foldl]
    norm_num
  have hmax : gridMax (Grid.mk 1 3 fun _ _ => (1 : ℝ)) = 1 := by
    rw [gridMax]
    simp only [hr, List.foldl]
    norm_num
  have hmean : gridMean (Grid.mk 1 3 fun _ _ => (1 : ℝ)) = 1 := by
    rw [gridMean]
    simp only [hr, List.foldl]
    norm_num
  rw [process_panorama]
  simp only [hrs, Bool.false_eq_true, if_false]
  rw [hverts]
  have htris : create_triangles 1 3 none = [] := rfl
  simp only [htris, hcln, hmin, hmax, hmean]
  norm_num
  decide

lemma uniqueVerts_ne_nil {α : Type} [DecidableEq α] {l : List (Pt3 α)}
    (h : l ≠ []) : uniqueVerts l ≠ [] := by
  obtain ⟨a, t, rfl⟩ := List.exists_cons_of_ne_nil h
  have ha : a ∈ uniqueVerts (a :: t) := by
    rw [uniqueVerts, mem_foldl_addUnique]
    exact Or.inr (List.mem_cons_self _ _)
  exact List.ne_nil_of_mem ha

/-- C4 counterexample: processing a 3×1 image (W = 3, H = 1, so no quad
exists) with `remove_edges = false` returns normally with a mesh of zero
faces and metadata recording it — no `GeometryError` (or any error) is
raised; in fact no such exception class exists in the code. -/
theorem C4_geometry_error_counterexample :
    (process_panorama Real.cos Real.sin Real.sqrt Real.pi id
      (fun _ _ => Grid.mk 1 3 fun _ _ => (1 : ℝ)) 3 1 2048 false false
      (3 / 100)).2.faces = 0 ∧
    (process_panorama Real.cos Real.sin Real.sqrt Real.pi id
      (fun _ _ => Grid.mk 1 3 fun _ _ => (1 : ℝ)) 3 1 2048 false false
      (3 / 100)).1.faces = [] ∧
    (process_panorama Real.cos Real.sin Real.sqrt Real.pi id
      (fun _ _ => Grid.mk 1 3 fun _ _ => (1 : ℝ)) 3 1 2048 false false
      (3 / 100)).2.resolution = "3x1" := by
  rw [C4_pipeline_eval]
  exact ⟨rfl, rfl, rfl⟩

/-- C4 (amended): the pipeline defines no `GeometryError`; a grid with
H < 2 or W < 2 triangulates to an empty face list and `process_panorama`
silently returns the resulting empty-faced mesh with its metadata, and
mesh cleanup never turns a nonempty vertex list into an empty one. -/
theorem C4_geometry_error_amended :
    (∀ m : Mesh ℝ, m.verts ≠ [] → (cleanupMesh m).verts ≠ []) ∧
    (process_panorama Real.cos Real.sin Real.sqrt Real.pi id
      (fun _ _ => Grid.mk 1 3 fun _ _ => (1 : ℝ)) 3 1 2048 false false
      (3 / 100)).2.faces = 0 ∧
    (process_panorama Real.cos Real.sin Real.sqrt Real.pi id
      (fun _ _ => Grid.mk 1 3 fun _ _ => (1 : ℝ)) 3 1 2048 false false
      (3 / 100)).2.vertices = 1 := by
  refine ⟨fun m hm => ?_, ?_, ?_⟩
  · rw [cleanupMesh, merge_vertices]
    exact uniqueVerts_ne_nil
      (show (remove_duplicate_faces (remove_degenerate_faces
          (merge_vertices m))).verts ≠ [] by
        rw [remove_duplicate_faces, remove_degenerate_faces, merge_vertices]
        exact uniqueVerts_ne_nil hm)
  · rw [C4_pipeline_eval]
  · rw [C4_pipeline_eval]

theorem C4_geometry_error_amended_witness :
    ((Mesh.mk [(⟨0, 0, 0⟩ : Pt3 ℝ)] []).verts ≠ [] ∧
      (cleanupMesh (Mesh.mk [(⟨0, 0, 0⟩ : Pt3 ℝ)] [])).verts ≠ []) :=
  ⟨by simp, C4_geometry_error_amended.1 (Mesh.mk [⟨0, 0, 0⟩] []) (by simp)⟩

/-! ### Claim C5 (no shape-mismatch check exists in the code) -/

lemma C5_pipeline_eval :
    process_panorama Real.cos Real.sin Real.sqrt Real.pi id
      (fun _ _ => Grid.mk 3 3 fun _ _ => (1 : ℝ)) 2 2 2048 false false
      (3 / 100) =
    (⟨[⟨0, 0, -1⟩, ⟨-1, 0, 0⟩, ⟨1, 0, 0⟩, ⟨0, 0, 1⟩], []⟩,
     ⟨4, 0, "2x2", 1, 1, 1⟩) := by
  have hlat0 : linspaceAt (-(Real.pi / 2)) (Real.pi / 2) 3 0 =
      -(Real.pi / 2) := by
    rw [linspaceAt, if_neg (by norm_num)]
    push_cast
    ring
  have hlat1 : linspaceAt (-(Real.pi / 2)) (Real.pi / 2) 3 1 = 0 := by
    rw [linspaceAt, if_neg (by norm_num)]
    push_cast
    ring
  have hlat2 : linspaceAt (-(Real.pi / 2)) (Real.pi / 2) 3 2 =
      Real.pi / 2 := by
    rw [linspaceAt, if_neg (by norm_num)]
    push_cast
    ring
  have hlon0 : linspaceAt (-Real.pi) Real.pi 3 0 = -Real.pi := by
    rw [linspaceAt, if_neg (by norm_num)]
    push_cast
    ring
  have hlon1 : linspaceAt (-Real.pi) Real.pi 3 1 = 0 := by
    rw [linspaceAt, if_neg (by norm_num)]
    push_cast
    ring
  have hlon2 : linspaceAt (-Real.pi) Real.pi 3 2 = Real.pi := by
    rw [linspaceAt, if_neg (by norm_num)]
    push_cast
    ring
  have hr9 : List.range (3 * 3) = [0, 1, 2, 3, 4, 5, 6, 7, 8] := rfl
  have hverts : pano_depth_to_world_points Real.cos Real.sin Real.pi
      (Grid.mk 3 3 fun _ _ => (1 : ℝ)) =
      [⟨0, 0, -1⟩, ⟨0, 0, -1⟩, ⟨0, 0, -1⟩,
       ⟨-1, 0, 0⟩, ⟨1, 0, 0⟩, ⟨-1, 0, 0⟩,
       ⟨0, 0, 1⟩, ⟨0, 0, 1⟩, ⟨0, 0, 1⟩] := by
    rw [pano_depth_to_world_points]
    simp only [hr9, List.map]
    norm_num [hlat0, hlat1, hlat2, hlon0, hlon1, hlon2,
      Real.cos_pi_div_two, Real.sin_pi_div_two, Real.cos_pi, Real.sin_pi,
      Real.cos_zero, Real.sin_zero, Pt3.mk.injEq]
  have hcln : cleanupMesh (Mesh.mk
      [(⟨0, 0, -1⟩ : Pt3 ℝ), ⟨0, 0, -1⟩, ⟨0, 0, -1⟩,
       ⟨-1, 0, 0⟩, ⟨1, 0, 0⟩, ⟨-1, 0, 0⟩,
       ⟨0, 0, 1⟩, ⟨0, 0, 1⟩, ⟨0, 0, 1⟩]
      [(0, 2, 1), (1, 2, 3)]) =
      ⟨[⟨0, 0, -1⟩, ⟨-1, 0, 0⟩, ⟨1, 0, 0⟩, ⟨0, 0, 1⟩], []⟩ := by
    norm_num [cleanupMesh, remove_degenerate_faces, remove_duplicate_faces,
      merge_vertices, dedupFacesGo, uniqueVerts, addUnique, List.foldl,
      Mesh.mk.injEq, List.filter, faceDegenerate, Pt3.sub, Pt3.cross,
      Pt3.mk.injEq, decide_eq_true_eq]
  have hrs : resizeDims 2 2 2048 = (2, 2) := by
    norm_num [resizeDims]
  have hmin : gridMin (Grid.mk 3 3 fun _ _ => (1 : ℝ)) = 1 := by
    rw [gridMin]
    simp only [hr9, List.foldl]
    norm_num
  have hmax : gridMax (Grid.mk 3 3 fun _ _ => (1 : ℝ)) = 1 := by
    rw [gridMax]
    simp only [hr9, List.foldl]
    norm_num
  have hmean : gridMean (Grid.mk 3 3 fun _ _ => (1 : ℝ)) = 1 := by
    rw [gridMean]
    simp only [hr9, List.foldl]
    norm_num
  have htris : create_triangles 2 2 none = [(0, 2, 1), (1, 2, 3)] := rfl
  rw [process_panorama]
  simp only [hrs, Bool.false_eq_true, if_false]
  rw [hverts]
  simp only [htris, hcln, hmin, hmax, hmean]
  norm_num
  decide

/-- C5 counterexample: a depth source answering a 2×2 image with a 3×3
depth map does not trigger any failure — `process_panorama` proceeds to
project the mismatched 3×3 grid (9 points, merging to the 4 distinct
sphere positions below, two of which could never arise from a 2×2 grid)
and returns normally; no `InferenceError` or shape check exists. -/
theorem C5_inference_error_counterexample :
    (pano_depth_to_world_points Real.cos Real.sin Real.pi
      (Grid.mk 3 3 fun _ _ => (1 : ℝ))).length = 9 ∧
    (process_panorama Real.cos Real.sin Real.sqrt Real.pi id
      (fun _ _ => Grid.mk 3 3 fun _ _ => (1 : ℝ)) 2 2 2048 false false
      (3 / 100)).1.verts =
      [⟨0, 0, -1⟩, ⟨-1, 0, 0⟩, ⟨1, 0, 0⟩, ⟨0, 0, 1⟩] ∧
    (process_panorama Real.cos Real.sin Real.sqrt Real.pi id
      (fun _ _ => Grid.mk 3 3 fun _ _ => (1 : ℝ)) 2 2 2048 false false
      (3 / 100)).2.resolution = "2x2" := by
  refine ⟨by rw [pano_length]; rfl, ?_, ?_⟩ <;> rw [C5_pipeline_eval]

/-- C5 (amended): `process_panorama` performs no validation of the depth
map's shape: the depth map's own dimensions drive the projection while
the (possibly resized) image's dimensions drive the triangulation, and
the call always returns normally — whatever grid the depth source
produces flows through to the returned mesh. -/
theorem C5_inference_error_amended :
    (∀ (ds : ℕ → ℕ → Grid ℝ) (w h maxRes : ℕ) (et : ℝ),
      (process_panorama Real.cos Real.sin Real.sqrt Real.pi id ds
          w h maxRes false false et).1 =
        cleanupMesh
          ⟨pano_depth_to_world_points Real.cos Real.sin Real.pi
            (ds (resizeDims w h maxRes).1 (resizeDims w h maxRes).2),
           create_triangles (resizeDims w h maxRes).2
             (resizeDims w h maxRes).1 none⟩) ∧
    (process_panorama Real.cos Real.sin Real.sqrt Real.pi id
      (fun _ _ => Grid.mk 3 3 fun _ _ => (1 : ℝ)) 2 2 2048 false false
      (3 / 100)).2.vertices = 4 := by
  refine ⟨fun ds w h maxRes et => rfl, ?_⟩
  rw [C5_pipeline_eval]

/-! ### Claim C2 (end-to-end 4x4 constant-depth example) -/

set_option maxHeartbeats 1000000 in
lemma C2_pipeline_eval :
    process_panorama Real.cos Real.sin Real.sqrt Real.pi id
      (fun _ _ => Grid.mk 4 4 fun _ _ => (2 : ℝ)) 4 4 2048 false false
      (3 / 100) =
    (⟨[⟨0, 0, -2⟩, ⟨-Real.sqrt 3, 0, -1⟩,
       ⟨Real.sqrt 3 / 2, -(3 / 2), -1⟩, ⟨Real.sqrt 3 / 2, 3 / 2, -1⟩,
       ⟨-Real.sqrt 3, 0, 1⟩, ⟨Real.sqrt 3 / 2, -(3 / 2), 1⟩,
       ⟨Real.sqrt 3 / 2, 3 / 2, 1⟩, ⟨0, 0, 2⟩],
      [(0, 1, 2), (0, 2, 3), (0, 3, 1), (1, 4, 2), (2, 4, 5), (2, 5, 3),
       (3, 5, 6), (3, 6, 1), (1, 6, 4), (4, 7, 5), (5, 7, 6), (6, 7, 4)]⟩,
     ⟨8, 12, "4x4", 2, 2, 2⟩) := by
  have hss : Real.sqrt 3 * Real.sqrt 3 = 3 :=
    Real.mul_self_sqrt (by norm_num)
  set V : List (Pt3 ℝ) :=
    [⟨0, 0, -2⟩, ⟨0, 0, -2⟩, ⟨0, 0, -2⟩, ⟨0, 0, -2⟩,
     ⟨-Real.sqrt 3, 0, -1⟩, ⟨Real.sqrt 3 / 2, -(3 / 2), -1⟩,
     ⟨Real.sqrt 3 / 2, 3 / 2, -1⟩, ⟨-Real.sqrt 3, 0, -1⟩,
     ⟨-Real.sqrt 3, 0, 1⟩, ⟨Real.sqrt 3 / 2, -(3 / 2), 1⟩,
     ⟨Real.sqrt 3 / 2, 3 / 2, 1⟩, ⟨-Real.sqrt 3, 0, 1⟩,
     ⟨0, 0, 2⟩, ⟨0, 0, 2⟩, ⟨0, 0, 2⟩, ⟨0, 0, 2⟩] with hV
  set U : List (Pt3 ℝ) :=
    [⟨0, 0, -2⟩, ⟨-Real.sqrt 3, 0, -1⟩, ⟨Real.sqrt 3 / 2, -(3 / 2), -1⟩,
     ⟨Real.sqrt 3 / 2, 3 / 2, -1⟩, ⟨-Real.sqrt 3, 0, 1⟩,
     ⟨Real.sqrt 3 / 2, -(3 / 2), 1⟩, ⟨Real.sqrt 3 / 2, 3 / 2, 1⟩,
     ⟨0, 0, 2⟩] with hU
  have hverts : pano_depth_to_world_points Real.cos Real.sin Real.pi
      (Grid.mk 4 4 fun _ _ => (2 : ℝ)) = V := by
    rw [hV]
    have hlat0 : linspaceAt (-(Real.pi / 2)) (Real.pi / 2) 4 0 =
        -(Real.pi / 2) := by
      rw [linspaceAt, if_neg (by norm_num)]
      push_cast
      ring
    have hlat1 : linspaceAt (-(Real.pi / 2)) (Real.pi / 2) 4 1 =
        -(Real.pi / 6) := by
      rw [linspaceAt, if_neg (by norm_num)]
      push_cast
      ring
    have hlat2 : linspaceAt (-(Real.pi / 2)) (Real.pi / 2) 4 2 =
        Real.pi / 6 := by
      rw [linspaceAt, if_neg (by norm_num)]
      push_cast
      ring
    have hlat3 : linspaceAt (-(Real.pi / 2)) (Real.pi / 2) 4 3 =
        Real.pi / 2 := by
      rw [linspaceAt, if_neg (by norm_num)]
      push_cast
      ring
    have hlon0 : linspaceAt (-Real.pi) Real.pi 4 0 = -Real.pi := by
      rw [linspaceAt, if_neg (by norm_num)]
      push_cast
      ring
    have hlon1 : linspaceAt (-Real.pi) Real.pi 4 1 = -(Real.pi / 3) := by
      rw [linspaceAt, if_neg (by norm_num)]
      push_cast
      ring
    have hlon2 : linspaceAt (-Real.pi) Real.pi 4 2 = Real.pi / 3 := by
      rw [linspaceAt, if_neg (by norm_num)]
      push_cast
      ring
    have hlon3 : linspaceAt (-Real.pi) Real.pi 4 3 = Real.pi := by
      rw [linspaceAt, if_neg (by norm_num)]
      push_cast
      ring
    have hr16 : List.range (4 * 4) =
        [0, 1, 2, 3, 4, 5, 6, 7, 8, 9, 10, 11, 12, 13, 14, 15] := rfl
    rw [pano_depth_to_world_points]
    simp only [hr16, List.map]
    norm_num [hlat0, hlat1, hlat2, hlat3, hlon0, hlon1, hlon2, hlon3,
      Real.cos_pi_div_two, Real.sin_pi_div_two, Real.cos_pi, Real.sin_pi,
      Real.cos_pi_div_six, Real.sin_pi_div_six, Real.cos_pi_div_three,
      Real.sin_pi_div_three, Pt3.mk.injEq]
    refine ⟨by ring, ⟨by ring, ?_⟩, by ring, ⟨by ring, ?_⟩, by ring⟩ <;>
      linear_combination hss / 2
  have hu : uniqueVerts V = U := by
    rw [hV, hU]
    norm_num [uniqueVerts, addUnique, List.foldl, Pt3.mk.injEq]
  have hv0 : vIdx (V.getD 0 ⟨0, 0, 0⟩) U = 0 := by
    rw [hV, hU]
    norm_num [vIdx, Pt3.mk.injEq]
  have hv1 : vIdx (V.getD 1 ⟨0, 0, 0⟩) U = 0 := by
    rw [hV, hU]
    norm_num [vIdx, Pt3.mk.injEq]
  have hv2 : vIdx (V.getD 2 ⟨0, 0, 0⟩) U = 0 := by
    rw [hV, hU]
    norm_num [vIdx, Pt3.mk.injEq]
  have hv3 : vIdx (V.getD 3 ⟨0, 0, 0⟩) U = 0 := by
    rw [hV, hU]
    norm_num [vIdx, Pt3.mk.injEq]
  have hv4 : vIdx (V.getD 4 ⟨0, 0, 0⟩) U = 1 := by
    rw [hV, hU]
    norm_num [vIdx, Pt3.mk.injEq]
  have hv5 : vIdx (V.getD 5 ⟨0, 0, 0⟩) U = 2 := by
    rw [hV, hU]
    norm_num [vIdx, Pt3.mk.injEq]
  have hv6 : vIdx (V.getD 6 ⟨0, 0, 0⟩) U = 3 := by
    rw [hV, hU]
    norm_num [vIdx, Pt3.mk.injEq]
  have hv7 : vIdx (V.getD 7 ⟨0, 0, 0⟩) U = 1 := by
    rw [hV, hU]
    norm_num [vIdx, Pt3.mk.injEq]
  have hv8 : vIdx (V.getD 8 ⟨0, 0, 0⟩) U = 4 := by
    rw [hV, hU]
    norm_num [vIdx, Pt3.mk.injEq]
  have hv9 : vIdx (V.getD 9 ⟨0, 0, 0⟩) U = 5 := by
    rw [hV, hU]
    norm_num [vIdx, Pt3.mk.injEq]
  have hv10 : vIdx (V.getD 10 ⟨0, 0, 0⟩) U = 6 := by
    rw [hV, hU]
    norm_num [vIdx, Pt3.mk.injEq]
  have hv11 : vIdx (V.getD 11 ⟨0, 0, 0⟩) U = 4 := by
    rw [hV, hU]
    norm_num [vIdx, Pt3.mk.injEq]
  have hv12 : vIdx (V.getD 12 ⟨0, 0, 0⟩) U = 7 := by
    rw [hV, hU]
    norm_num [vIdx, Pt3.mk.injEq]
  have hv13 : vIdx (V.getD 13 ⟨0, 0, 0⟩) U = 7 := by
    rw [hV, hU]
    norm_num [vIdx, Pt3.mk.injEq]
  have hv14 : vIdx (V.getD 14 ⟨0, 0, 0⟩) U = 7 := by
    rw [hV, hU]
    norm_num [vIdx, Pt3.mk.injEq]
  have hv15 : vIdx (V.getD 15 ⟨0, 0, 0⟩) U = 7 := by
    rw [hV, hU]
    norm_num [vIdx, Pt3.mk.injEq]
  have he0 : faceDegenerate U (0, 1, 0) = true := by
    rw [hU, faceDegenerate]
    norm_num [Pt3.sub, Pt3.cross, Pt3.mk.injEq]
  have he1 : faceDegenerate U (0, 1, 2) = false := by
    rw [hU, faceDegenerate]
    norm_num [Pt3.sub, Pt3.cross, Pt3.mk.injEq]
  have he2 : faceDegenerate U (0, 2, 0) = true := by
    rw [hU, faceDegenerate]
    norm_num [Pt3.sub, Pt3.cross, Pt3.mk.injEq]
  have he3 : faceDegenerate U (0, 2, 3) = false := by
    rw [hU, faceDegenerate]
    norm_num [Pt3.sub, Pt3.cross, Pt3.mk.injEq]
  have he4 : faceDegenerate U (0, 3, 0) = true := by
    rw [hU, faceDegenerate]
    norm_num [Pt3.sub, Pt3.cross, Pt3.mk.injEq]
  have he5 : faceDegenerate U (0, 3, 1) = false := by
    rw [hU, faceDegenerate]
    norm_num [Pt3.sub, Pt3.cross, Pt3.mk.injEq]
  have he6 : faceDegenerate U (1, 4, 2) = false := by
    rw [hU, faceDegenerate]
    norm_num [Pt3.sub, Pt3.cross, Pt3.mk.injEq]
  have he7 : faceDegenerate U (2, 4, 5) = false := by
    rw [hU, faceDegenerate]
    norm_num [Pt3.sub, Pt3.cross, Pt3.mk.injEq]
  have he8 : faceDegenerate U (2, 5, 3) = false := by
    rw [hU, faceDegenerate]
    norm_num [Pt3.sub, Pt3.cross, Pt3.mk.injEq]
  have he9 : faceDegenerate U (3, 5, 6) = false := by
    rw [hU, faceDegenerate]
    norm_num [Pt3.sub, Pt3.cross, Pt3.mk.injEq]
  have he10 : faceDegenerate U (3, 6, 1) = false := by
    rw [hU, faceDegenerate]
    norm_num [Pt3.sub, Pt3.cross, Pt3.mk.injEq]
  have he11 : faceDegenerate U (1, 6, 4) = false := by
    rw [hU, faceDegenerate]
    norm_num [Pt3.sub, Pt3.cross, Pt3.mk.injEq]
  have he12 : faceDegenerate U (4, 7, 5) = false := by
    rw [hU, faceDegenerate]
    norm_num [Pt3.sub, Pt3.cross, Pt3.mk.injEq]
  have he13 : faceDegenerate U (5, 7, 7) = true := by
    rw [hU, faceDegenerate]
    norm_num [Pt3.sub, Pt3.cross, Pt3.mk.injEq]
    all_goals ring
  have he14 : faceDegenerate U (5, 7, 6) = false := by
    rw [hU, faceDegenerate]
    norm_num [Pt3.sub, Pt3.cross, Pt3.mk.injEq]
  have he15 : faceDegenerate U (6, 7, 7) = true := by
    rw [hU, faceDegenerate]
    norm_num [Pt3.sub, Pt3.cross, Pt3.mk.injEq]
    all_goals ring
  have he16 : faceDegenerate U (6, 7, 4) = false := by
    rw [hU, faceDegenerate]
    norm_num [Pt3.sub, Pt3.cross, Pt3.mk.injEq]
  have he17 : faceDegenerate U (4, 7, 7) = true := by
    rw [hU, faceDegenerate]
    norm_num [Pt3.sub, Pt3.cross, Pt3.mk.injEq]
  have huu : uniqueVerts U = U := by
    rw [hU]
    norm_num [uniqueVerts, addUnique, List.foldl, Pt3.mk.injEq]
  have hw0 : vIdx (U.getD 0 ⟨0, 0, 0⟩) U = 0 := by
    rw [hU]
    norm_num [vIdx, Pt3.mk.injEq]
  have hw1 : vIdx (U.getD 1 ⟨0, 0, 0⟩) U = 1 := by
    rw [hU]
    norm_num [vIdx, Pt3.mk.injEq]
  have hw2 : vIdx (U.getD 2 ⟨0, 0, 0⟩) U = 2 := by
    rw [hU]
    norm_num [vIdx, Pt3.mk.injEq]
  have hw3 : vIdx (U.getD 3 ⟨0, 0, 0⟩) U = 3 := by
    rw [hU]
    norm_num [vIdx, Pt3.mk.injEq]
  have hw4 : vIdx (U.getD 4 ⟨0, 0, 0⟩) U = 4 := by
    rw [hU]
    norm_num [vIdx, Pt3.mk.injEq]
  have hw5 : vIdx (U.getD 5 ⟨0, 0, 0⟩) U = 5 := by
    rw [hU]
    norm_num [vIdx, Pt3.mk.injEq]
  have hw6 : vIdx (U.getD 6 ⟨0, 0, 0⟩) U = 6 := by
    rw [hU]
    norm_num [vIdx, Pt3.mk.injEq]
  have hw7 : vIdx (U.getD 7 ⟨0, 0, 0⟩) U = 7 := by
    rw [hU]
    norm_num [vIdx, Pt3.mk.injEq]
  have htris : create_triangles 4 4 none =
      [(0, 4, 1), (1, 4, 5), (1, 5, 2), (2, 5, 6), (2, 6, 3), (3, 6, 7),
       (4, 8, 5), (5, 8, 9), (5, 9, 6), (6, 9, 10), (6, 10, 7),
       (7, 10, 11), (8, 12, 9), (9, 12, 13), (9, 13, 10), (10, 13, 14),
       (10, 14, 11), (11, 14, 15)] := by decide
  have hm1 : merge_vertices (Mesh.mk V
      [(0, 4, 1), (1, 4, 5), (1, 5, 2), (2, 5, 6), (2, 6, 3), (3, 6, 7),
       (4, 8, 5), (5, 8, 9), (5, 9, 6), (6, 9, 10), (6, 10, 7),
       (7, 10, 11), (8, 12, 9), (9, 12, 13), (9, 13, 10), (10, 13, 14),
       (10, 14, 11), (11, 14, 15)]) = Mesh.mk U
      [(0, 1, 0), (0, 1, 2), (0, 2, 0), (0, 2, 3), (0, 3, 0), (0, 3, 1),
       (1, 4, 2), (2, 4, 5), (2, 5, 3), (3, 5, 6), (3, 6, 1), (1, 6, 4),
       (4, 7, 5), (5, 7, 7), (5, 7, 6), (6, 7, 7), (6, 7, 4), (4, 7, 7)] := by
    rw [merge_vertices]
    simp only [hu, List.map, hv0, hv1, hv2, hv3, hv4, hv5, hv6, hv7, hv8,
      hv9, hv10, hv11, hv12, hv13, hv14, hv15]
  have hfilU : List.filter (fun f => ! faceDegenerate U f)
      [(0, 1, 0), (0, 1, 2), (0, 2, 0), (0, 2, 3), (0, 3, 0), (0, 3, 1),
       (1, 4, 2), (2, 4, 5), (2, 5, 3), (3, 5, 6), (3, 6, 1), (1, 6, 4),
       (4, 7, 5), (5, 7, 7), (5, 7, 6), (6, 7, 7), (6, 7, 4), (4, 7, 7)] =
      [(0, 1, 2), (0, 2, 3), (0, 3, 1), (1, 4, 2), (2, 4, 5), (2, 5, 3),
       (3, 5, 6), (3, 6, 1), (1, 6, 4), (4, 7, 5), (5, 7, 6), (6, 7, 4)] := by
    simp [List.filter_cons, he0, he1, he2, he3, he4, he5, he6, he7, he8,
      he9, he10, he11, he12, he13, he14, he15, he16, he17]
  have hdd : dedupFacesGo []
      [(0, 1, 2), (0, 2, 3), (0, 3, 1), (1, 4, 2), (2, 4, 5), (2, 5, 3),
       (3, 5, 6), (3, 6, 1), (1, 6, 4), (4, 7, 5), (5, 7, 6), (6, 7, 4)] =
      [(0, 1, 2), (0, 2, 3), (0, 3, 1), (1, 4, 2), (2, 4, 5), (2, 5, 3),
       (3, 5, 6), (3, 6, 1), (1, 6, 4), (4, 7, 5), (5, 7, 6), (6, 7, 4)] := by decide
  have hm2 : merge_vertices (Mesh.mk U
      [(0, 1, 2), (0, 2, 3), (0, 3, 1), (1, 4, 2), (2, 4, 5), (2, 5, 3),
       (3, 5, 6), (3, 6, 1), (1, 6, 4), (4, 7, 5), (5, 7, 6), (6, 7, 4)]) = Mesh.mk U
      [(0, 1, 2), (0, 2, 3), (0, 3, 1), (1, 4, 2), (2, 4, 5), (2, 5, 3),
       (3, 5, 6), (3, 6, 1), (1, 6, 4), (4, 7, 5), (5, 7, 6), (6, 7, 4)] := by
    rw [merge_vertices]
    simp only [huu, List.map, hw0, hw1, hw2, hw3, hw4, hw5, hw6, hw7]
  have hcln : cleanupMesh (Mesh.mk V
      [(0, 4, 1), (1, 4, 5), (1, 5, 2), (2, 5, 6), (2, 6, 3), (3, 6, 7),
       (4, 8, 5), (5, 8, 9), (5, 9, 6), (6, 9, 10), (6, 10, 7),
       (7, 10, 11), (8, 12, 9), (9, 12, 13), (9, 13, 10), (10, 13, 14),
       (10, 14, 11), (11, 14, 15)]) = Mesh.mk U
      [(0, 1, 2), (0, 2, 3), (0, 3, 1), (1, 4, 2), (2, 4, 5), (2, 5, 3),
       (3, 5, 6), (3, 6, 1), (1, 6, 4), (4, 7, 5), (5, 7, 6), (6, 7, 4)] := by
    rw [cleanupMesh, hm1, remove_degenerate_faces]
    simp only [hfilU]
    rw [remove_duplicate_faces]
    simp only [hdd]
    exact hm2
  have hr16 : List.range (4 * 4) =
      [0, 1, 2, 3, 4, 5, 6, 7, 8, 9, 10, 11, 12, 13, 14, 15] := rfl
  have hrs : resizeDims 4 4 2048 = (4, 4) := by
    norm_num [resizeDims]
  have hmin : gridMin (Grid.mk 4 4 fun _ _ => (2 : ℝ)) = 2 := by
    rw [gridMin]
    simp only [hr16, List.foldl]
    norm_num
  have hmax : gridMax (Grid.mk 4 4 fun _ _ => (2 : ℝ)) = 2 := by
    rw [gridMax]
    simp only [hr16, List.foldl]
    norm_num
  have hmean : gridMean (Grid.mk 4 4 fun _ _ => (2 : ℝ)) = 2 := by
    rw [gridMean]
    simp only [hr16, List.foldl]
    norm_num
  rw [process_panorama]
  simp only [hrs, Bool.false_eq_true, if_false]
  rw [hverts]
  simp only [htris, hcln, hmin, hmax, hmean]
  norm_num
  decide

/-- C2 counterexample: the pipeline on a 4×4 image with constant depth
2.0 (`smooth_depth = false`, `remove_edges = false`) does not return 16
vertices and 18 triangles: the four pole vertices of each pole row and
the ±π seam columns coincide and are merged (16 points collapse to 8
distinct positions), and the 6 zero-area pole triangles are removed. -/
theorem C2_end_to_end_counterexample :
    (process_panorama Real.cos Real.sin Real.sqrt Real.pi id
      (fun _ _ => Grid.mk 4 4 fun _ _ => (2 : ℝ)) 4 4 2048 false false
      (3 / 100)).1.verts.length ≠ 16 ∧
    (process_panorama Real.cos Real.sin Real.sqrt Real.pi id
      (fun _ _ => Grid.mk 4 4 fun _ _ => (2 : ℝ)) 4 4 2048 false false
      (3 / 100)).1.faces.length ≠ 18 := by
  rw [C2_pipeline_eval]
  norm_num

/-- C2 (amended): the pipeline on a 4×4 image with constant depth 2.0,
`smooth_depth = false` and `remove_edges = false`, returns a mesh with
exactly 8 vertices and exactly 12 triangles (the 16 projected points
merge to 8 distinct positions — both pole rows collapse and the ±π seam
columns coincide — and the 6 zero-area pole triangles are removed);
every vertex is at Euclidean distance 2.0 from the origin, and the
metadata has depth_min = depth_max = depth_mean = 2.0 and resolution
"4x4". -/
theorem C2_end_to_end_amended :
    (process_panorama Real.cos Real.sin Real.sqrt Real.pi id
      (fun _ _ => Grid.mk 4 4 fun _ _ => (2 : ℝ)) 4 4 2048 false false
      (3 / 100)).1.verts.length = 8 ∧
    (process_panorama Real.cos Real.sin Real.sqrt Real.pi id
      (fun _ _ => Grid.mk 4 4 fun _ _ => (2 : ℝ)) 4 4 2048 false false
      (3 / 100)).1.faces.length = 12 ∧
    (∀ p ∈ (process_panorama Real.cos Real.sin Real.sqrt Real.pi id
      (fun _ _ => Grid.mk 4 4 fun _ _ => (2 : ℝ)) 4 4 2048 false false
      (3 / 100)).1.verts,
      Real.sqrt (p.x ^ 2 + p.y ^ 2 + p.z ^ 2) = 2) ∧
    (process_panorama Real.cos Real.sin Real.sqrt Real.pi id
      (fun _ _ => Grid.mk 4 4 fun _ _ => (2 : ℝ)) 4 4 2048 false false
      (3 / 100)).2 = ⟨8, 12, "4x4", 2, 2, 2⟩ := by
  rw [C2_pipeline_eval]
  have hs3 : Real.sqrt 3 ^ 2 = 3 := Real.sq_sqrt (by norm_num)
  have h4 : Real.sqrt 4 = 2 := by
    rw [show (4 : ℝ) = 2 ^ 2 by norm_num, Real.sqrt_sq (by norm_num)]
  refine ⟨by norm_num, by norm_num, ?_, rfl⟩
  intro p hp
  simp only [List.mem_cons, List.not_mem_nil, or_false] at hp
  rcases hp with rfl | rfl | rfl | rfl | rfl | rfl | rfl | rfl <;>
    · norm_num [hs3, neg_sq, div_pow]
      exact h4
